import Mathlib

/-!
# Traffic-signal bounded buffer and aggregator (`task.cpp`)

A shallow embedding of `task.cpp`: the reading record, the bounded buffer queue,
the producer, and the consumer's windowed aggregation loop.

Modelling conventions.
* `int` and `time_t` values are `Int`; `size_t` values are `Nat`. The `int` sum
  `trafficCount[id] += num_cars` is reduced to the 32-bit range (`wrapInt32`),
  as the compiled program does; theorems that need the mathematical sum say
  when it is representable.
* An access `v[i]` outside the vector has no defined behaviour; the model
  returns `none` for it.
* The mutex serialises the critical sections of `add` and `remove`, so one
  execution of the queue is the sequence of its completed critical sections.
  An operation whose wait predicate is false has not completed: it is `none`.
* `time(nullptr)` and `rand()` are inputs of the functions that call them.
* `std::sort` is a parameter of the consumer. Theorems that hold for every
  conforming library take it constrained by the contract the C++ standard gives
  it (see `StdSortContract`); where the order among equal totals matters, it is
  the `std::sort` of libstdc++ (see `libstdcxx.sort`, `std_sort_libstdcxx`),
  which meets that contract (`std_sort_libstdcxx_contract`).
-/

namespace TrafficSim

/-! ## Data model -/

/-- The smallest value of the 32-bit C++ `int`. -/
def INT_MIN : Int := -2147483648

/-- The largest value of the 32-bit C++ `int`. -/
def INT_MAX : Int := 2147483647

/-- The value `x` is representable as a C++ `int`. -/
def fitsInt32 (x : Int) : Prop := -2147483648 ≤ x ∧ x ≤ 2147483647

instance fitsInt32_decidable (x : Int) : Decidable (fitsInt32 x) :=
  inferInstanceAs (Decidable (-2147483648 ≤ x ∧ x ≤ 2147483647))

/-- The `int` that a sum of two `int`s is stored as: the value modulo `2^32`
in the range `[-2^31, 2^31)`. It is the sum itself when that is representable. -/
def wrapInt32 (x : Int) : Int := (x + 2147483648) % 4294967296 - 2147483648

/-- The record `struct TrafficSignalData`. The field `num_cars` is an `int`
that the consumer adds to its totals; `num_cars_int` records that its value is
in the range of `int`. -/
structure TrafficSignalData where
  timestamp : Int
  light_id : Int
  num_cars : Int
  num_cars_int : fitsInt32 num_cars := by decide
  deriving DecidableEq, Repr

/-! ## BoundedBufferQueue -/

/-- The class `BoundedBufferQueue`: the `std::queue` (front of the queue is the
head of the list) and the constant `max_size`. -/
structure BoundedBufferQueue where
  buffer : List TrafficSignalData
  max_size : Nat
  deriving DecidableEq, Repr

namespace BoundedBufferQueue

/-- The constructor `BoundedBufferQueue(size_t size)`: an empty buffer. -/
def new (size : Nat) : BoundedBufferQueue :=
  { buffer := [], max_size := size }

/-- The wait predicate of `add`: `buffer.size() < max_size`. -/
def notFull (q : BoundedBufferQueue) : Bool :=
  decide (q.buffer.length < q.max_size)

/-- The wait predicate of `remove`: `!buffer.empty()`. -/
def notEmpty (q : BoundedBufferQueue) : Bool :=
  !q.buffer.isEmpty

/-- The critical section of `add`: once the wait predicate holds, push at the
back. The result is `none` while the caller is still waiting. -/
def add (q : BoundedBufferQueue) (data : TrafficSignalData) : Option BoundedBufferQueue :=
  if q.notFull then some { q with buffer := q.buffer ++ [data] } else none

/-- The critical section of `remove`: once the wait predicate holds, take the
front element and pop it. The result is `none` while the caller is still waiting. -/
def remove (q : BoundedBufferQueue) : Option (TrafficSignalData × BoundedBufferQueue) :=
  if q.notEmpty then
    match q.buffer with
    | [] => none
    | data :: rest => some (data, { q with buffer := rest })
  else none

end BoundedBufferQueue

/-- One completed queue operation, in the order the lock serialised them.
An `add` carries the index of the producer thread that called it. -/
inductive QueueOp where
  | add (producer : Nat) (data : TrafficSignalData)
  | remove
  deriving DecidableEq, Repr

/-- The outcome of a sequence of completed operations: the queue and the
readings returned by `remove`, oldest first. -/
structure QueueTrace where
  queue : BoundedBufferQueue
  removed : List TrafficSignalData
  deriving DecidableEq, Repr

/-- One completed operation applied to a trace; `none` when the operation's
wait predicate is false in that state, so that it cannot be the next one to
complete. -/
def stepOp (t : QueueTrace) : QueueOp → Option QueueTrace
  | QueueOp.add _ data =>
    match t.queue.add data with
    | some q => some { queue := q, removed := t.removed }
    | none => none
  | QueueOp.remove =>
    match t.queue.remove with
    | some (data, q) => some { queue := q, removed := t.removed ++ [data] }
    | none => none

/-- A sequence of completed operations, applied from left to right. -/
def runOps (t : QueueTrace) : List QueueOp → Option QueueTrace
  | [] => some t
  | op :: ops =>
    match stepOp t op with
    | some t1 => runOps t1 ops
    | none => none

/-- The producer-tagged readings passed to `add` in a sequence of operations. -/
def addedBy : List QueueOp → List (Nat × TrafficSignalData)
  | [] => []
  | QueueOp.add p data :: ops => (p, data) :: addedBy ops
  | QueueOp.remove :: ops => addedBy ops

/-- The readings passed to `add` in a sequence of operations, in order. -/
def added (ops : List QueueOp) : List TrafficSignalData :=
  (addedBy ops).map Prod.snd

/-- The start of every execution: the queue as constructed, nothing removed. -/
def QueueTrace.init (size : Nat) : QueueTrace :=
  { queue := BoundedBufferQueue.new size, removed := [] }

/-! ## Producer -/

/-- The function `generateTrafficData`; `now` is the value of `time(nullptr)`
and `rand` the value of `rand()`. The C++ `%` truncates towards zero. -/
def generateTrafficData (now rand : Int) (light_id : Int) : TrafficSignalData :=
  { timestamp := now, light_id := light_id, num_cars := Int.tmod rand 100,
    num_cars_int := by
      have hlt : Int.tmod rand 100 < 100 := Int.tmod_lt_of_pos rand (by decide)
      have hgt : -100 < Int.tmod rand 100 := by
        rcases rand with m | m
        · have h := Int.tmod_nonneg 100 (Int.ofNat_nonneg m)
          have e : Int.ofNat m = (m : Int) := rfl
          rw [e]
          omega
        · have e : Int.tmod (Int.negSucc m) 100 = -Int.ofNat (m.succ % 100) := rfl
          rw [e]
          have : m.succ % 100 < 100 := Nat.mod_lt _ (by decide)
          have e2 : Int.ofNat (m.succ % 100) = ((m.succ % 100 : Nat) : Int) := rfl
          rw [e2]
          omega
      unfold fitsInt32
      omega }

/-- The local constant `num_iterations` of `producerFunction`. -/
def producerFunction.num_iterations : Nat := 12

set_option linter.unusedVariables false in
/-- The function `producerFunction`: the arguments of its successive calls of
`buffer.add`, in order. `clock i` and `rand i` are the values that `time` and
`rand` return in iteration `i` of the loop `for (i = 0; i < num_iterations; ++i)`. -/
def producerFunction (id : Int) (num_measurements_per_hour : Int)
    (clock rand : Nat → Int) : List TrafficSignalData :=
  (List.range producerFunction.num_iterations).map
    (fun i => generateTrafficData (clock i) (rand i) id)

/-! ## The library's `std::sort`

The program is built against libstdc++, whose `std::sort` (`bits/stl_algo.h`,
`bits/stl_heap.h`) is an introsort: a median-of-three quicksort on ranges of more
than 16 elements, with a heap sort as fallback when the recursion gets too deep,
followed by one insertion sort over the whole array. The array is a list; a
loop that the library leaves unguarded stops in the model at the array's end,
and every loop carries a bound on its iterations, the length of the array,
which it does not reach before its own condition ends it. -/

namespace libstdcxx

/-- The constant `_S_threshold` of `stl_algo.h`. -/
def S_threshold : Nat := 16

/-- The halving loop of `std::__lg`. -/
def lgAux : Nat → Nat → Nat
  | 0, _ => 0
  | fuel + 1, n => if n < 2 then 0 else lgAux fuel (n / 2) + 1

/-- The function `std::__lg`: the floor of the binary logarithm. -/
def lg (n : Nat) : Nat := lgAux n n

/-- The function `std::iter_swap` on two positions of the array. -/
def iter_swap {α : Type} (l : List α) (i j : Nat) : List α :=
  match l[i]?, l[j]? with
  | some x, some y => (l.set i y).set j x
  | _, _ => l

/-- The function `__unguarded_linear_insert`: `val` is inserted into the
elements `pre` before it, moving back past every element it compares before. -/
def unguarded_linear_insert {α : Type} (comp : α → α → Bool) (val : α) (pre : List α) : List α :=
  (pre.reverse.dropWhile (fun x => comp val x)).reverse ++
    val :: (pre.reverse.takeWhile (fun x => comp val x)).reverse

/-- One iteration of the loop of `__insertion_sort`. -/
def insertion_step {α : Type} (comp : α → α → Bool) (pre : List α) (val : α) : List α :=
  match pre with
  | [] => [val]
  | first :: _ => if comp val first then val :: pre else unguarded_linear_insert comp val pre

/-- The function `__insertion_sort`. -/
def insertion_sort {α : Type} (comp : α → α → Bool) : List α → List α
  | [] => []
  | x :: rest => rest.foldl (insertion_step comp) [x]

/-- The function `__unguarded_insertion_sort` on the elements `rest`, which
follow the elements `pre` in the array. -/
def unguarded_insertion_sort {α : Type} (comp : α → α → Bool) (pre rest : List α) : List α :=
  rest.foldl (fun acc val => unguarded_linear_insert comp val acc) pre

/-- The function `__final_insertion_sort`. -/
def final_insertion_sort {α : Type} (comp : α → α → Bool) (l : List α) : List α :=
  if l.length > S_threshold then
    unguarded_insertion_sort comp (insertion_sort comp (l.take S_threshold)) (l.drop S_threshold)
  else insertion_sort comp l

/-- The function `__move_median_to_first`. -/
def move_median_to_first {α : Type} (comp : α → α → Bool) (l : List α)
    (result a b c : Nat) : List α :=
  match l[a]?, l[b]?, l[c]? with
  | some va, some vb, some vc =>
    if comp va vb then
      if comp vb vc then iter_swap l result b
      else if comp va vc then iter_swap l result c
      else iter_swap l result a
    else if comp va vc then iter_swap l result a
    else if comp vb vc then iter_swap l result c
    else iter_swap l result b
  | _, _, _ => l

/-- The loop `while (comp(first, pivot)) ++first`. -/
def scan_up {α : Type} (comp : α → α → Bool) (l : List α) (pivot : α) : Nat → Nat → Nat
  | 0, first => first
  | fuel + 1, first =>
    match l[first]? with
    | some x => if comp x pivot then scan_up comp l pivot fuel (first + 1) else first
    | none => first

/-- The loop `while (comp(pivot, last)) --last`. -/
def scan_down {α : Type} (comp : α → α → Bool) (l : List α) (pivot : α) : Nat → Nat → Nat
  | 0, last => last
  | fuel + 1, last =>
    match l[last]? with
    | some x => if comp pivot x then scan_down comp l pivot fuel (last - 1) else last
    | none => last

/-- The function `__unguarded_partition`; `pivot` is the value at the front
of the array, which the swaps do not move. -/
def unguarded_partition {α : Type} (comp : α → α → Bool) (pivot : α) :
    Nat → List α → Nat → Nat → List α × Nat
  | 0, l, first, _ => (l, first)
  | fuel + 1, l, first, last =>
    let first1 := scan_up comp l pivot l.length first
    let last1 := scan_down comp l pivot l.length (last - 1)
    if first1 < last1 then
      unguarded_partition comp pivot fuel (iter_swap l first1 last1) (first1 + 1) last1
    else (l, first1)

/-- The function `__unguarded_partition_pivot`. -/
def unguarded_partition_pivot {α : Type} (comp : α → α → Bool) (l : List α) : List α × Nat :=
  let l1 := move_median_to_first comp l 0 1 (l.length / 2) (l.length - 1)
  match l1 with
  | [] => (l1, 0)
  | pivot :: _ => unguarded_partition comp pivot l1.length l1 1 l1.length

/-- The function `__push_heap`. -/
def push_heap {α : Type} (comp : α → α → Bool) : Nat → List α → Nat → Nat → α → List α
  | 0, l, holeIndex, _, value => l.set holeIndex value
  | fuel + 1, l, holeIndex, topIndex, value =>
    match l[(holeIndex - 1) / 2]? with
    | some p =>
      if holeIndex > topIndex ∧ comp p value then
        push_heap comp fuel (l.set holeIndex p) ((holeIndex - 1) / 2) topIndex value
      else l.set holeIndex value
    | none => l.set holeIndex value

/-- The statements `secondChild = 2 * (secondChild + 1)` and
`if (comp(first + secondChild, first + (secondChild - 1))) secondChild--`
of `__adjust_heap`. -/
def larger_child {α : Type} (comp : α → α → Bool) (l : List α) (secondChild : Nat) : Nat :=
  match l[2 * (secondChild + 1)]?, l[2 * (secondChild + 1) - 1]? with
  | some x, some y => if comp x y then 2 * (secondChild + 1) - 1 else 2 * (secondChild + 1)
  | _, _ => 2 * (secondChild + 1)

/-- The first loop of `__adjust_heap`. -/
def adjust_heap_loop {α : Type} (comp : α → α → Bool) (len : Nat) :
    Nat → List α → Nat → Nat → List α × Nat × Nat
  | 0, l, holeIndex, secondChild => (l, holeIndex, secondChild)
  | fuel + 1, l, holeIndex, secondChild =>
    if secondChild < (len - 1) / 2 then
      match l[larger_child comp l secondChild]? with
      | some v =>
        adjust_heap_loop comp len fuel (l.set holeIndex v)
          (larger_child comp l secondChild) (larger_child comp l secondChild)
      | none => (l, holeIndex, secondChild)
    else (l, holeIndex, secondChild)

/-- The function `__adjust_heap`. -/
def adjust_heap {α : Type} (comp : α → α → Bool) (l : List α) (holeIndex len : Nat)
    (value : α) : List α :=
  match adjust_heap_loop comp len len l holeIndex holeIndex with
  | (l1, hole1, sc1) =>
    if len % 2 = 0 ∧ (sc1 : Int) = Int.tdiv ((len : Int) - 2) 2 then
      match l1[2 * (sc1 + 1) - 1]? with
      | some v => push_heap comp len (l1.set hole1 v) (2 * (sc1 + 1) - 1) holeIndex value
      | none => push_heap comp len l1 hole1 holeIndex value
    else push_heap comp len l1 hole1 holeIndex value

/-- The function `__pop_heap(first, last, result)`. -/
def pop_heap {α : Type} (comp : α → α → Bool) (l : List α) (last result : Nat) : List α :=
  match l[result]?, l[0]? with
  | some value, some front => adjust_heap comp (l.set result front) 0 last value
  | _, _ => l

/-- The loop of `__make_heap`. -/
def make_heap_loop {α : Type} (comp : α → α → Bool) (len : Nat) : Nat → List α → Nat → List α
  | 0, l, _ => l
  | fuel + 1, l, parent =>
    match l[parent]? with
    | some value =>
      if parent = 0 then adjust_heap comp l parent len value
      else make_heap_loop comp len fuel (adjust_heap comp l parent len value) (parent - 1)
    | none => l

/-- The function `__make_heap`. -/
def make_heap {α : Type} (comp : α → α → Bool) (l : List α) : List α :=
  if l.length < 2 then l else make_heap_loop comp l.length l.length l ((l.length - 2) / 2)

/-- The function `__sort_heap`. -/
def sort_heap {α : Type} (comp : α → α → Bool) : Nat → List α → Nat → List α
  | 0, l, _ => l
  | fuel + 1, l, last =>
    if last > 1 then sort_heap comp fuel (pop_heap comp l (last - 1) (last - 1)) (last - 1)
    else l

/-- The call of `__partial_sort` with `middle = last`, the fallback of the
introsort loop: `__heap_select` reduces to `__make_heap`, then `__sort_heap`. -/
def heap_sort_range {α : Type} (comp : α → α → Bool) (l : List α) : List α :=
  sort_heap comp l.length (make_heap comp l) l.length

/-- The function `__introsort_loop` on one range of the array. -/
def introsort_loop {α : Type} (comp : α → α → Bool) : Nat → List α → List α
  | 0, l => if l.length > S_threshold then heap_sort_range comp l else l
  | depth_limit + 1, l =>
    if l.length > S_threshold then
      match unguarded_partition_pivot comp l with
      | (l1, cut) =>
        introsort_loop comp depth_limit (l1.take cut) ++
          introsort_loop comp depth_limit (l1.drop cut)
    else l

/-- The function `std::sort` of libstdc++ (`std::__sort`). -/
def sort {α : Type} (comp : α → α → Bool) (l : List α) : List α :=
  match l with
  | [] => []
  | _ => final_insertion_sort comp (introsort_loop comp (lg l.length * 2) l)

end libstdcxx

/-! ## Consumer -/

/-- The comparator passed to `std::sort`: `a.second > b.second`. -/
def sortComparator (a b : Int × Int) : Bool :=
  decide (a.2 > b.2)

/-- The contract of `std::sort(first, last, comp)`: the result is a
rearrangement of the input in which no later element compares before an
earlier one. The relative order of equivalent elements is not fixed. -/
def StdSortContract (comp : Int × Int → Int × Int → Bool)
    (std_sort : List (Int × Int) → List (Int × Int)) : Prop :=
  ∀ l, (std_sort l).Perm l ∧ (std_sort l).Pairwise (fun x y => comp y x = false)

instance sortOrder_decidable : DecidableRel (fun a b : Int × Int => b.2 ≤ a.2) :=
  fun a b => Int.decLe b.2 a.2

instance sortOrder_total : IsTotal (Int × Int) (fun a b => b.2 ≤ a.2) :=
  ⟨fun a b => le_total b.2 a.2⟩

instance sortOrder_trans : IsTrans (Int × Int) (fun a b => b.2 ≤ a.2) :=
  ⟨fun _ _ _ hab hbc => le_trans hbc hab⟩

/-- A sort meeting the contract that keeps equivalent elements in input order
(insertion sort from the back). -/
def sortKeepingTies (l : List (Int × Int)) : List (Int × Int) :=
  l.insertionSort (fun a b => b.2 ≤ a.2)

/-- The call `sort(trafficLights.begin(), trafficLights.end(), comp)` of the
consumer, as libstdc++ executes it. -/
def std_sort_libstdcxx (trafficLights : List (Int × Int)) : List (Int × Int) :=
  libstdcxx.sort sortComparator trafficLights

/-- The local state of `consumerFunction`: `trafficCount` and `last_hour`. -/
structure ConsumerState where
  trafficCount : List Int
  last_hour : Int
  deriving DecidableEq, Repr

/-- What one window close produces: the totals the window held when it closed,
the vector `trafficLights` after the sort, and the lines printed. -/
structure WindowReport where
  totals : List Int
  trafficLights : List (Int × Int)
  printed : List (Int × Int)
  deriving DecidableEq, Repr

namespace consumerFunction

/-- The initialisation `vector<int> trafficCount(num_traffic_lights, 0)` and
`last_hour = time(nullptr)`. A negative count converts to a `size_t` above the
vector's maximum size, and the constructor throws: `none`. -/
def init (num_traffic_lights : Int) (now : Int) : Option ConsumerState :=
  if num_traffic_lights < 0 then none
  else some { trafficCount := List.replicate num_traffic_lights.toNat 0, last_hour := now }

/-- The statement `trafficCount[data.light_id] += data.num_cars`, an `int` sum
stored in an `int`: past the range it wraps around. The index is not checked;
outside the vector the access has no defined behaviour: `none`. -/
def accumulate (trafficCount : List Int) (data : TrafficSignalData) : Option (List Int) :=
  if data.light_id < 0 then none
  else
    match trafficCount[data.light_id.toNat]? with
    | some total =>
      some (trafficCount.set data.light_id.toNat (wrapInt32 (total + data.num_cars)))
    | none => none

/-- The loop filling `trafficLights` with `{i, trafficCount[i]}` for
`0 ≤ i < num_traffic_lights`. The vector has `num_traffic_lights` entries
whenever the loop runs, so every index read is inside it. -/
def buildTrafficLights (num_traffic_lights : Int) (trafficCount : List Int) :
    List (Int × Int) :=
  (List.range num_traffic_lights.toNat).map (fun (i : Nat) => ((i : Int), trafficCount.getD i 0))

/-- The printing loop `for (i = 0; i < top_n && i < trafficLights.size(); ++i)`:
the first `top_n` entries, or all of them when there are fewer. -/
def printTopN (top_n : Int) (trafficLights : List (Int × Int)) : List (Int × Int) :=
  trafficLights.take top_n.toNat

/-- The block run when the hour has passed: build, sort, print. -/
def closeWindow (std_sort : List (Int × Int) → List (Int × Int))
    (num_traffic_lights top_n : Int) (trafficCount : List Int) : WindowReport :=
  let trafficLights := std_sort (buildTrafficLights num_traffic_lights trafficCount)
  { totals := trafficCount, trafficLights := trafficLights,
    printed := printTopN top_n trafficLights }

/-- One iteration of the `while (true)` loop, for the reading `data` returned
by `buffer.remove()` and the value `current_time` of `time(nullptr)`. -/
def step (std_sort : List (Int × Int) → List (Int × Int))
    (num_traffic_lights top_n : Int) (st : ConsumerState)
    (data : TrafficSignalData) (current_time : Int) :
    Option (ConsumerState × Option WindowReport) :=
  match accumulate st.trafficCount data with
  | none => none
  | some trafficCount =>
    if current_time - st.last_hour ≥ 3600 then
      some ({ trafficCount := List.replicate num_traffic_lights.toNat 0,
              last_hour := current_time },
            some (closeWindow std_sort num_traffic_lights top_n trafficCount))
    else
      some ({ trafficCount := trafficCount, last_hour := st.last_hour }, none)

/-- Finitely many iterations of the loop, one per dequeued reading paired with
the clock value read in that iteration; the reports are collected in order. -/
def run (std_sort : List (Int × Int) → List (Int × Int))
    (num_traffic_lights top_n : Int) :
    ConsumerState → List (TrafficSignalData × Int) → Option (ConsumerState × List WindowReport)
  | st, [] => some (st, [])
  | st, (data, current_time) :: rest =>
    match step std_sort num_traffic_lights top_n st data current_time with
    | none => none
    | some (st1, out) =>
      match run std_sort num_traffic_lights top_n st1 rest with
      | none => none
      | some (st2, outs) => some (st2, out.toList ++ outs)

end consumerFunction

/-- The sum of the counts of the readings with sensor id `s`. -/
def countFor (s : Int) (readings : List TrafficSignalData) : Int :=
  ((readings.filter (fun d => decide (d.light_id = s))).map (fun d => d.num_cars)).sum

/-- The counts of every sensor over every contiguous stretch of the readings
sum to a value representable as an `int`: whichever stretch a window covers,
no running total leaves the `int` range. -/
def SumsFit (readings : List TrafficSignalData) : Prop :=
  ∀ (before stretch after : List TrafficSignalData),
    readings = before ++ stretch ++ after → ∀ s : Int, fitsInt32 (countFor s stretch)

/-- The ranking as the specification words it: descending by total, ties
broken by ascending sensor id. -/
def RankedWithTieBreak (report : List (Int × Int)) : Prop :=
  report.Pairwise (fun a b => b.2 < a.2 ∨ (b.2 = a.2 ∧ a.1 < b.1))

/-- The end-to-end scenario of the specification: two producers, each adding
readings of 10, 20 and 30 cars for sensor 0, interleaved with the consumer's
removes through a queue of capacity 2. -/
def scenarioOps : List QueueOp :=
  [QueueOp.add 0 (.mk 1 0 10), QueueOp.add 1 (.mk 1 0 10), QueueOp.remove,
   QueueOp.add 0 (.mk 2 0 20), QueueOp.remove, QueueOp.add 1 (.mk 2 0 20), QueueOp.remove,
   QueueOp.add 0 (.mk 3 0 30), QueueOp.remove, QueueOp.add 1 (.mk 3 0 30), QueueOp.remove,
   QueueOp.remove]

/-- The trace the scenario ends in: the buffer drained, six readings removed. -/
def scenarioTrace : QueueTrace :=
  { queue := { buffer := [], max_size := 2 },
    removed := [(.mk 1 0 10), (.mk 1 0 10), (.mk 2 0 20), (.mk 2 0 20), (.mk 3 0 30), (.mk 3 0 30)] }

/-- The clock values the consumer reads in the scenario, one per reading. -/
def scenarioClock : List Int := [1, 1, 2, 2, 3, 3]

/-- The ways a statement of the program can end. The source contains no
`assert` and no checked access (`at`), so it has no path to `assertionFailure`. -/
inductive Outcome (α : Type) where
  | completes (result : α)
  | assertionFailure
  | undefinedBehaviour
  deriving DecidableEq, Repr

/-- The statement `trafficCount[data.light_id] += data.num_cars` with the way it
ends: `operator[]` does not check its index, so outside the vector the
behaviour is undefined. -/
def consumerFunction.accumulateOutcome (trafficCount : List Int)
    (data : TrafficSignalData) : Outcome (List Int) :=
  match consumerFunction.accumulate trafficCount data with
  | some result => Outcome.completes result
  | none => Outcome.undefinedBehaviour

/-- The accumulation as the specification words it: a sensor id outside
`[0, sensorCount)` is a fatal assertion, and no total is updated. -/
def accumulateAsSpecified (trafficCount : List Int) (data : TrafficSignalData) :
    Outcome (List Int) :=
  if 0 ≤ data.light_id ∧ data.light_id < trafficCount.length then
    Outcome.completes (trafficCount.set data.light_id.toNat
      (trafficCount.getD data.light_id.toNat 0 + data.num_cars))
  else Outcome.assertionFailure

/-- The predicate-guarded wait of `add`, `not_full.wait(lock, pred)`: `states`
are the queue states the caller finds, under the lock, at its first check and
at each later wake-up, spurious ones included. The push happens at the first
state in which the predicate holds; until then the caller keeps waiting. -/
def addWaiting (data : TrafficSignalData) : List BoundedBufferQueue → Option BoundedBufferQueue
  | [] => none
  | q :: later =>
    match q.add data with
    | some q1 => some q1
    | none => addWaiting data later

/-- The predicate-guarded wait of `remove`, `not_empty.wait(lock, pred)`, over
the queue states found at the first check and at each later wake-up. -/
def removeWaiting : List BoundedBufferQueue → Option (TrafficSignalData × BoundedBufferQueue)
  | [] => none
  | q :: later =>
    match q.remove with
    | some r => some r
    | none => removeWaiting later

/-! ## The driver -/

namespace main

/-- The constant `num_traffic_lights` of `main`. -/
def num_traffic_lights : Int := 5

/-- The constant `num_producers` of `main`. -/
def num_producers : Int := 3

/-- The constant `num_consumers` of `main`. -/
def num_consumers : Int := 1

/-- The constant `top_n` of `main`. -/
def top_n : Int := 3

/-- The capacity of the queue `main` constructs: `BoundedBufferQueue buffer(100)`. -/
def buffer_size : Nat := 100

/-- The producer threads `main` creates, in the loop
`for (i = 0; i < num_producers; ++i)`: thread `i` runs
`producerFunction(i % num_traffic_lights, buffer, num_traffic_lights)`. Each entry
is the sequence of readings that thread passes to `add`; `clock i k` and
`rand i k` are the values `time` and `rand` return in iteration `k` of thread `i`. -/
def producers (clock rand : Nat → Nat → Int) : List (List TrafficSignalData) :=
  (List.range num_producers.toNat).map
    (fun (i : Nat) =>
      producerFunction (Int.tmod (i : Int) num_traffic_lights) num_traffic_lights
        (clock i) (rand i))

end main

/-! ## The bounded buffer: capacity and order -/

theorem add_some_iff (q q1 : BoundedBufferQueue) (data : TrafficSignalData) :
    q.add data = some q1 ↔
      q.buffer.length < q.max_size ∧ q1 = { q with buffer := q.buffer ++ [data] } := by
  unfold BoundedBufferQueue.add BoundedBufferQueue.notFull
  by_cases h : q.buffer.length < q.max_size
  · simp [h, eq_comm]
  · simp [h]

theorem remove_some_iff (q q1 : BoundedBufferQueue) (data : TrafficSignalData) :
    q.remove = some (data, q1) ↔
      q.buffer = data :: q1.buffer ∧ q1.max_size = q.max_size := by
  obtain ⟨buf, m⟩ := q
  obtain ⟨buf1, m1⟩ := q1
  cases buf with
  | nil => simp [BoundedBufferQueue.remove, BoundedBufferQueue.notEmpty]
  | cons d rest =>
    simp [BoundedBufferQueue.remove, BoundedBufferQueue.notEmpty]
    constructor
    · rintro ⟨h1, h2, h3⟩; exact ⟨⟨h1, h2⟩, h3.symm⟩
    · rintro ⟨⟨h1, h2⟩, h3⟩; exact ⟨h1, h2, h3.symm⟩

/-- One completed operation keeps `max_size`, keeps the size within it, and
keeps "removed so far, then the buffer" equal to "added so far". -/
theorem stepOp_spec (t t1 : QueueTrace) (op : QueueOp) (h : stepOp t op = some t1)
    (hsize : t.queue.buffer.length ≤ t.queue.max_size) :
    t1.queue.max_size = t.queue.max_size ∧
    t1.queue.buffer.length ≤ t1.queue.max_size ∧
    t1.removed ++ t1.queue.buffer = (t.removed ++ t.queue.buffer) ++ added [op] := by
  cases op with
  | add p data =>
    simp only [stepOp] at h
    cases hq : t.queue.add data with
    | none => simp [hq] at h
    | some q =>
      simp [hq] at h
      obtain ⟨hlt, rfl⟩ := (add_some_iff _ _ _).1 hq
      subst h
      simp [added, addedBy]
      omega
  | remove =>
    simp only [stepOp] at h
    cases hq : t.queue.remove with
    | none => simp [hq] at h
    | some r =>
      obtain ⟨data, q⟩ := r
      simp [hq] at h
      obtain ⟨hbuf, hmax⟩ := (remove_some_iff _ _ _).1 hq
      subst h
      simp [added, addedBy, hbuf, hmax] at hsize ⊢
      omega

theorem added_cons (op : QueueOp) (ops : List QueueOp) :
    added (op :: ops) = added [op] ++ added ops := by
  cases op <;> simp [added, addedBy]

theorem runOps_spec (ops : List QueueOp) :
    ∀ (t t1 : QueueTrace), runOps t ops = some t1 →
      t.queue.buffer.length ≤ t.queue.max_size →
      t1.queue.max_size = t.queue.max_size ∧
      t1.queue.buffer.length ≤ t1.queue.max_size ∧
      t1.removed ++ t1.queue.buffer = (t.removed ++ t.queue.buffer) ++ added ops := by
  induction ops with
  | nil =>
    intro t t1 h hsize
    simp [runOps] at h
    subst h
    simp [added, addedBy, hsize]
  | cons op ops ih =>
    intro t t1 h hsize
    simp only [runOps] at h
    cases hs : stepOp t op with
    | none => simp [hs] at h
    | some t2 =>
      simp [hs] at h
      obtain ⟨hm, hle, happ⟩ := stepOp_spec t t2 op hs hsize
      obtain ⟨hm1, hle1, happ1⟩ := ih t2 t1 h hle
      refine ⟨hm1.trans hm, hle1, ?_⟩
      rw [happ1, happ, added_cons op ops, List.append_assoc]

theorem runOps_take (ops : List QueueOp) :
    ∀ (t t1 : QueueTrace) (k : Nat), runOps t ops = some t1 →
      ∃ tk, runOps t (ops.take k) = some tk := by
  induction ops with
  | nil => intro t t1 k _; exact ⟨t, by simp [runOps]⟩
  | cons op ops ih =>
    intro t t1 k h
    cases k with
    | zero => exact ⟨t, by simp [runOps]⟩
    | succ k =>
      simp only [runOps] at h
      cases hs : stepOp t op with
      | none => simp [hs] at h
      | some t2 =>
        simp [hs] at h
        obtain ⟨tk, htk⟩ := ih t2 t1 k h
        exact ⟨tk, by simp [runOps, hs, htk]⟩

theorem init_size (max_size : Nat) :
    (QueueTrace.init max_size).queue.buffer.length ≤ (QueueTrace.init max_size).queue.max_size := by
  simp [QueueTrace.init, BoundedBufferQueue.new]

/-- C1. Bounded-capacity invariant: starting from the empty queue of capacity
`max_size`, after every sequence of completed `add` and `remove` operations,
and after every prefix of it, the buffer size is at least 0 and at most
`max_size`. -/
theorem bounded_capacity_invariant (max_size : Nat) (ops : List QueueOp) (t : QueueTrace)
    (h : runOps (QueueTrace.init max_size) ops = some t) :
    (0 ≤ t.queue.buffer.length ∧ t.queue.buffer.length ≤ max_size) ∧
    ∀ k, ∃ tk, runOps (QueueTrace.init max_size) (ops.take k) = some tk ∧
      0 ≤ tk.queue.buffer.length ∧ tk.queue.buffer.length ≤ max_size := by
  have key : ∀ (l : List QueueOp) (u : QueueTrace),
      runOps (QueueTrace.init max_size) l = some u → u.queue.buffer.length ≤ max_size := by
    intro l u hu
    obtain ⟨hm, hle, _⟩ := runOps_spec l _ u hu (init_size max_size)
    have : (QueueTrace.init max_size).queue.max_size = max_size := rfl
    omega
  refine ⟨⟨Nat.zero_le _, key ops t h⟩, ?_⟩
  intro k
  obtain ⟨tk, htk⟩ := runOps_take ops _ t k h
  exact ⟨tk, htk, Nat.zero_le _, key _ tk htk⟩

/-- A run of capacity 2 that fills the buffer, drains one reading and fills it
again stays within the capacity. -/
theorem bounded_capacity_invariant_witness :
    (0 ≤ 2 ∧ 2 ≤ 2) ∧
    ∀ k, ∃ tk, runOps (QueueTrace.init 2)
        ([QueueOp.add 0 (.mk 100 0 10), QueueOp.add 1 (.mk 100 1 20), QueueOp.remove,
          QueueOp.add 0 (.mk 400 0 30)].take k) = some tk ∧
      0 ≤ tk.queue.buffer.length ∧ tk.queue.buffer.length ≤ 2 :=
  bounded_capacity_invariant 2
    [QueueOp.add 0 (.mk 100 0 10), QueueOp.add 1 (.mk 100 1 20), QueueOp.remove,
      QueueOp.add 0 (.mk 400 0 30)]
    { queue := { buffer := [(.mk 100 1 20), (.mk 400 0 30)], max_size := 2 },
      removed := [(.mk 100 0 10)] }
    (by decide)

/-- C2. FIFO without loss or duplication: after every sequence of completed
operations, the readings removed so far followed by the buffer contents are
exactly the readings added so far, in the order the lock serialised the adds.
Hence the `n`-th reading removed is the `n`-th reading added, the `n`-th
`remove` is matched with the `n`-th `add` and with no other, and the readings
of each producer are removed in the order that producer added them. -/
theorem fifo_no_loss_no_duplication (max_size : Nat) (ops : List QueueOp) (t : QueueTrace)
    (h : runOps (QueueTrace.init max_size) ops = some t) :
    t.removed ++ t.queue.buffer = added ops ∧
    t.removed.length ≤ (added ops).length ∧
    (∀ n, n < t.removed.length → t.removed[n]? = (added ops)[n]?) ∧
    t.removed = ((addedBy ops).take t.removed.length).map Prod.snd ∧
    ∀ p : Nat,
      (((addedBy ops).take t.removed.length).filter (fun x => decide (x.1 = p))) <+:
        ((addedBy ops).filter (fun x => decide (x.1 = p))) := by
  obtain ⟨_, _, happ⟩ := runOps_spec ops _ t h (init_size max_size)
  have happ1 : t.removed ++ t.queue.buffer = added ops := by
    simpa [QueueTrace.init, BoundedBufferQueue.new] using happ
  have hlen : t.removed.length ≤ (added ops).length := by
    rw [← happ1]; simp
  have htake : t.removed = (added ops).take t.removed.length := by
    rw [← happ1]; simp
  refine ⟨happ1, hlen, ?_, ?_, ?_⟩
  · intro n hn
    rw [← happ1, List.getElem?_append_left hn]
  · rw [List.map_take]; exact htake
  · intro p
    have : (addedBy ops).take t.removed.length <+: addedBy ops := List.take_prefix _ _
    exact this.filter _

/-- Two producers interleaved through a queue of capacity 2: what has been
removed, followed by what is still buffered, is what was added. -/
theorem fifo_no_loss_no_duplication_witness :
    runOps (QueueTrace.init 2)
      [QueueOp.add 0 (.mk 100 0 10), QueueOp.add 1 (.mk 100 1 20), QueueOp.remove,
        QueueOp.add 0 (.mk 400 0 30), QueueOp.remove]
      = some { queue := { buffer := [(.mk 400 0 30)], max_size := 2 },
               removed := [(.mk 100 0 10), (.mk 100 1 20)] } ∧
    ([(.mk 100 0 10), (.mk 100 1 20)] : List TrafficSignalData) ++ [(.mk 400 0 30)]
      = added [QueueOp.add 0 (.mk 100 0 10), QueueOp.add 1 (.mk 100 1 20), QueueOp.remove,
        QueueOp.add 0 (.mk 400 0 30), QueueOp.remove] :=
  ⟨by decide,
   (fifo_no_loss_no_duplication 2
    [QueueOp.add 0 (.mk 100 0 10), QueueOp.add 1 (.mk 100 1 20), QueueOp.remove,
      QueueOp.add 0 (.mk 400 0 30), QueueOp.remove]
    { queue := { buffer := [(.mk 400 0 30)], max_size := 2 },
      removed := [(.mk 100 0 10), (.mk 100 1 20)] }
    (by decide)).1⟩

/-! ## The sort contract -/

theorem pairwise_comparator_iff (l : List (Int × Int)) :
    l.Pairwise (fun x y => sortComparator y x = false) ↔ l.Pairwise (fun x y => y.2 ≤ x.2) := by
  constructor <;> intro h <;> refine h.imp ?_ <;> intro a b hab <;>
    simpa [sortComparator] using hab

theorem sortKeepingTies_contract : StdSortContract sortComparator sortKeepingTies := by
  intro l
  refine ⟨List.perm_insertionSort _ l, ?_⟩
  rw [pairwise_comparator_iff]
  exact List.sorted_insertionSort (fun a b : Int × Int => b.2 ≤ a.2) l

/-- Under the contract the sorted vector is non-increasing in the totals. -/
theorem contract_sorted (std_sort : List (Int × Int) → List (Int × Int))
    (h : StdSortContract sortComparator std_sort) (l : List (Int × Int)) :
    (std_sort l).Pairwise (fun x y => y.2 ≤ x.2) :=
  (pairwise_comparator_iff _).1 (h l).2

theorem printed_eq (std_sort : List (Int × Int) → List (Int × Int))
    (n top_n : Int) (totals : List Int) :
    (consumerFunction.closeWindow std_sort n top_n totals).printed =
      (std_sort (consumerFunction.buildTrafficLights n totals)).take top_n.toNat := rfl

theorem printed_sorted (std_sort : List (Int × Int) → List (Int × Int))
    (h : StdSortContract sortComparator std_sort) (n top_n : Int) (totals : List Int) :
    ((consumerFunction.closeWindow std_sort n top_n totals).printed).Pairwise
      (fun x y => y.2 ≤ x.2) := by
  rw [printed_eq]
  exact (contract_sorted std_sort h _).sublist (List.take_sublist _ _)

/-! ## The vector `trafficLights` -/

theorem mem_buildTrafficLights (n : Int) (totals : List Int) (e : Int × Int) :
    e ∈ consumerFunction.buildTrafficLights n totals ↔
      0 ≤ e.1 ∧ e.1 < n ∧ e.2 = totals.getD e.1.toNat 0 := by
  obtain ⟨i, v⟩ := e
  simp only [consumerFunction.buildTrafficLights, List.mem_map, List.mem_range, Prod.mk.injEq]
  constructor
  · rintro ⟨k, hk, rfl, rfl⟩
    refine ⟨by omega, by omega, ?_⟩
    simp
  · rintro ⟨h0, hn, rfl⟩
    refine ⟨i.toNat, by omega, by omega, rfl⟩

theorem buildTrafficLights_ids (n : Int) (totals : List Int) :
    ((consumerFunction.buildTrafficLights n totals).map Prod.fst).Nodup := by
  simp only [consumerFunction.buildTrafficLights, List.map_map]
  refine (List.nodup_range _).map ?_
  intro a b hab
  simpa using hab

theorem buildTrafficLights_length (n : Int) (totals : List Int) :
    (consumerFunction.buildTrafficLights n totals).length = n.toNat := by
  simp [consumerFunction.buildTrafficLights]

/-- Every sensor, with its total, is in the sorted vector. -/
theorem mem_sorted_of_id (std_sort : List (Int × Int) → List (Int × Int))
    (h : StdSortContract sortComparator std_sort) (n : Int) (totals : List Int)
    (id : Int) (h0 : 0 ≤ id) (hn : id < n) :
    (id, totals.getD id.toNat 0) ∈ std_sort (consumerFunction.buildTrafficLights n totals) :=
  (h _).1.mem_iff.2 ((mem_buildTrafficLights n totals _).2 ⟨h0, hn, rfl⟩)

/-- Every printed entry is a sensor of the run with its total. -/
theorem printed_entry (std_sort : List (Int × Int) → List (Int × Int))
    (h : StdSortContract sortComparator std_sort) (n top_n : Int) (totals : List Int)
    (e : Int × Int)
    (he : e ∈ (consumerFunction.closeWindow std_sort n top_n totals).printed) :
    0 ≤ e.1 ∧ e.1 < n ∧ e.2 = totals.getD e.1.toNat 0 := by
  rw [printed_eq] at he
  exact (mem_buildTrafficLights n totals e).1 ((h _).1.mem_iff.1 (List.mem_of_mem_take he))

/-! ## Ranking and selection -/

/-- C3, as stated, fails: with 20 sensors that all counted 7 cars and
`top_n = 3`, the report the code prints starts with sensors 10, 19 and 18: the
comparator sees the totals only, and `std::sort` moves equal elements when it
partitions a range of more than 16. The ties are not in ascending id order. -/
theorem ranking_tie_break_counterexample :
    (consumerFunction.closeWindow std_sort_libstdcxx 20 3 (List.replicate 20 7)).printed
      = [(10, 7), (19, 7), (18, 7)] ∧
    ¬ RankedWithTieBreak
      (consumerFunction.closeWindow std_sort_libstdcxx 20 3 (List.replicate 20 7)).printed := by
  have hp : (consumerFunction.closeWindow std_sort_libstdcxx 20 3 (List.replicate 20 7)).printed
      = [(10, 7), (19, 7), (18, 7)] := by decide
  refine ⟨hp, ?_⟩
  rw [hp]
  simp [RankedWithTieBreak]

/-! ### The library's insertion sort -/

/-- The insertion of `val` into the elements before it, for an ordering `S`
that the elements already respect: the result respects `S` as well. -/
theorem linear_insert_pairwise {α : Type} (S : α → α → Prop) (comp : α → α → Bool)
    (val : α) (pre : List α) (hpre : pre.Pairwise S)
    (hkeep : ∀ x ∈ pre, comp val x = false → S x val)
    (hpass : ∀ x ∈ pre, comp val x = true → S val x)
    (hmono : ∀ x ∈ pre, ∀ k ∈ pre, S x k → comp val k = false → comp val x = false) :
    (libstdcxx.unguarded_linear_insert comp val pre).Pairwise S := by
  unfold libstdcxx.unguarded_linear_insert
  have hsplit : (pre.reverse.dropWhile (fun x => comp val x)).reverse ++
      (pre.reverse.takeWhile (fun x => comp val x)).reverse = pre := by
    rw [← List.reverse_append, List.takeWhile_append_dropWhile, List.reverse_reverse]
  have htaken : ∀ y ∈ (pre.reverse.takeWhile (fun x => comp val x)).reverse,
      comp val y = true := fun y hy => List.mem_takeWhile_imp (List.mem_reverse.1 hy)
  have hpre1 : ((pre.reverse.dropWhile (fun x => comp val x)).reverse ++
      (pre.reverse.takeWhile (fun x => comp val x)).reverse).Pairwise S := by
    rw [hsplit]; exact hpre
  have hmem1 : ∀ x ∈ (pre.reverse.dropWhile (fun x => comp val x)).reverse, x ∈ pre := by
    intro x hx
    rw [← hsplit]
    exact List.mem_append_left _ hx
  have hmem2 : ∀ x ∈ (pre.reverse.takeWhile (fun x => comp val x)).reverse, x ∈ pre := by
    intro x hx
    rw [← hsplit]
    exact List.mem_append_right _ hx
  have hkept : ∀ x ∈ (pre.reverse.dropWhile (fun x => comp val x)).reverse,
      comp val x = false := by
    intro x hx
    cases hd : pre.reverse.dropWhile (fun x => comp val x) with
    | nil => rw [hd] at hx; simp at hx
    | cons k t =>
      have hkfalse : comp val k = false := by
        have := List.head_dropWhile_not (fun x => comp val x) pre.reverse (by rw [hd]; simp)
        simpa [hd] using this
      have hkmem : k ∈ pre := hmem1 k (by rw [hd]; simp)
      have hpw := (List.pairwise_append.1 hpre1).1
      rw [hd, List.reverse_cons] at hpw hx
      rcases List.mem_append.1 hx with hx | hx
      · have hS : S x k := (List.pairwise_append.1 hpw).2.2 x hx k (by simp)
        exact hmono x (hmem1 x (by rw [hd, List.reverse_cons]; exact List.mem_append_left _ hx))
          k hkmem hS hkfalse
      · simp at hx
        rw [hx]; exact hkfalse
  obtain ⟨h1, h2, h3⟩ := List.pairwise_append.1 hpre1
  refine List.pairwise_append.2 ⟨h1, List.pairwise_cons.2 ⟨?_, h2⟩, ?_⟩
  · intro y hy
    exact hpass y (hmem2 y hy) (htaken y hy)
  · intro x hx y hy
    rcases List.mem_cons.1 hy with rfl | hy
    · exact hkeep x (hmem1 x hx) (hkept x hx)
    · exact h3 x hx y hy

theorem mem_linear_insert {α : Type} (comp : α → α → Bool) (val : α) (pre : List α) (y : α) :
    y ∈ libstdcxx.unguarded_linear_insert comp val pre ↔ y = val ∨ y ∈ pre := by
  have hsplit : (pre.reverse.dropWhile (fun x => comp val x)).reverse ++
      (pre.reverse.takeWhile (fun x => comp val x)).reverse = pre := by
    rw [← List.reverse_append, List.takeWhile_append_dropWhile, List.reverse_reverse]
  unfold libstdcxx.unguarded_linear_insert
  constructor
  · intro h
    rcases List.mem_append.1 h with h | h
    · right; rw [← hsplit]; exact List.mem_append_left _ h
    · rcases List.mem_cons.1 h with h | h
      · left; exact h
      · right; rw [← hsplit]; exact List.mem_append_right _ h
  · intro h
    rcases h with rfl | h
    · simp
    · rw [← hsplit] at h
      rcases List.mem_append.1 h with h | h
      · exact List.mem_append_left _ h
      · exact List.mem_append_right _ (List.mem_cons_of_mem _ h)

theorem mem_insertion_step {α : Type} (comp : α → α → Bool) (pre : List α) (val y : α) :
    y ∈ libstdcxx.insertion_step comp pre val ↔ y = val ∨ y ∈ pre := by
  unfold libstdcxx.insertion_step
  cases pre with
  | nil => simp
  | cons first t =>
    simp only []
    split
    · simp
    · exact mem_linear_insert comp val (first :: t) y

/-- One step of the insertion sort keeps the elements in non-increasing order
of total. -/
theorem linear_insert_sorted (pre : List (Int × Int)) (val : Int × Int)
    (hpre : pre.Pairwise (fun a b => b.2 ≤ a.2)) :
    (libstdcxx.unguarded_linear_insert sortComparator val pre).Pairwise
      (fun a b => b.2 ≤ a.2) := by
  apply linear_insert_pairwise (fun a b : Int × Int => b.2 ≤ a.2) sortComparator val pre hpre
  · intro x _ hx
    simp only [sortComparator, decide_eq_false_iff_not, not_lt] at hx
    exact hx
  · intro x _ hx
    simp only [sortComparator, decide_eq_true_eq] at hx
    omega
  · intro x _ k _ hxk hk
    simp only [sortComparator, decide_eq_false_iff_not, not_lt] at hk ⊢
    omega

theorem insertion_step_sorted (pre : List (Int × Int)) (val : Int × Int)
    (hpre : pre.Pairwise (fun a b => b.2 ≤ a.2)) :
    (libstdcxx.insertion_step sortComparator pre val).Pairwise (fun a b => b.2 ≤ a.2) := by
  unfold libstdcxx.insertion_step
  cases pre with
  | nil => simp
  | cons first t =>
    simp only []
    split
    · rename_i hfront
      simp only [sortComparator, decide_eq_true_eq] at hfront
      refine List.pairwise_cons.2 ⟨?_, hpre⟩
      intro x hx
      rcases List.mem_cons.1 hx with rfl | hx
      · omega
      · have := (List.pairwise_cons.1 hpre).1 x hx
        omega
    · exact linear_insert_sorted (first :: t) val hpre

theorem insertion_sort_sorted (l : List (Int × Int)) :
    (libstdcxx.insertion_sort sortComparator l).Pairwise (fun a b => b.2 ≤ a.2) := by
  have hfold : ∀ (rest acc : List (Int × Int)), acc.Pairwise (fun a b => b.2 ≤ a.2) →
      (rest.foldl (libstdcxx.insertion_step sortComparator) acc).Pairwise
        (fun a b => b.2 ≤ a.2) := by
    intro rest
    induction rest with
    | nil => intro acc h; exact h
    | cons v rest ih =>
      intro acc h
      exact ih _ (insertion_step_sorted acc v h)
  cases l with
  | nil => simp [libstdcxx.insertion_sort]
  | cons x rest => exact hfold rest [x] (List.pairwise_singleton _ _)

theorem unguarded_insertion_sort_sorted (pre rest : List (Int × Int))
    (hpre : pre.Pairwise (fun a b => b.2 ≤ a.2)) :
    (libstdcxx.unguarded_insertion_sort sortComparator pre rest).Pairwise
      (fun a b => b.2 ≤ a.2) := by
  unfold libstdcxx.unguarded_insertion_sort
  induction rest generalizing pre with
  | nil => exact hpre
  | cons v rest ih => exact ih _ (linear_insert_sorted pre v hpre)

/-- Whatever the vector holds, the library's sort leaves it in non-increasing
order of total. -/
theorem std_sort_sorted (l : List (Int × Int)) :
    (std_sort_libstdcxx l).Pairwise (fun a b => b.2 ≤ a.2) := by
  unfold std_sort_libstdcxx libstdcxx.sort
  cases l with
  | nil => simp
  | cons x rest =>
    simp only []
    unfold libstdcxx.final_insertion_sort
    split
    · exact unguarded_insertion_sort_sorted _ _ (insertion_sort_sorted _)
    · exact insertion_sort_sorted _

/-- One step of the insertion sort on elements that arrive in ascending id
order keeps the order "descending total, ties by ascending id". -/
theorem insertion_step_ranked (pre : List (Int × Int)) (val : Int × Int)
    (hpre : pre.Pairwise (fun a b => b.2 < a.2 ∨ (b.2 = a.2 ∧ a.1 < b.1)))
    (hid : ∀ x ∈ pre, x.1 < val.1) :
    (libstdcxx.insertion_step sortComparator pre val).Pairwise
      (fun a b => b.2 < a.2 ∨ (b.2 = a.2 ∧ a.1 < b.1)) := by
  unfold libstdcxx.insertion_step
  cases pre with
  | nil => simp
  | cons first t =>
    simp only []
    split
    · rename_i hfront
      simp only [sortComparator, decide_eq_true_eq] at hfront
      refine List.pairwise_cons.2 ⟨?_, hpre⟩
      intro x hx
      rcases List.mem_cons.1 hx with rfl | hx
      · left; omega
      · have := (List.pairwise_cons.1 hpre).1 x hx
        left; omega
    · apply linear_insert_pairwise
        (fun a b : Int × Int => b.2 < a.2 ∨ (b.2 = a.2 ∧ a.1 < b.1)) sortComparator val
        (first :: t) hpre
      · intro x hx hc
        simp only [sortComparator, decide_eq_false_iff_not, not_lt] at hc
        have := hid x hx
        omega
      · intro x _ hc
        simp only [sortComparator, decide_eq_true_eq] at hc
        left; omega
      · intro x _ k _ hxk hk
        simp only [sortComparator, decide_eq_false_iff_not, not_lt] at hk ⊢
        omega

theorem insertion_sort_ranked (l : List (Int × Int))
    (hids : l.Pairwise (fun a b => a.1 < b.1)) :
    (libstdcxx.insertion_sort sortComparator l).Pairwise
      (fun a b => b.2 < a.2 ∨ (b.2 = a.2 ∧ a.1 < b.1)) := by
  have hfold : ∀ (rest acc : List (Int × Int)),
      acc.Pairwise (fun a b => b.2 < a.2 ∨ (b.2 = a.2 ∧ a.1 < b.1)) →
      rest.Pairwise (fun a b => a.1 < b.1) →
      (∀ a ∈ acc, ∀ b ∈ rest, a.1 < b.1) →
      (rest.foldl (libstdcxx.insertion_step sortComparator) acc).Pairwise
        (fun a b => b.2 < a.2 ∨ (b.2 = a.2 ∧ a.1 < b.1)) := by
    intro rest
    induction rest with
    | nil => intro acc h _ _; exact h
    | cons v rest ih =>
      intro acc h hrest hcross
      refine ih _ (insertion_step_ranked acc v h (fun x hx => hcross x hx v (by simp)))
        (List.pairwise_cons.1 hrest).2 ?_
      intro a ha b hb
      rcases (mem_insertion_step sortComparator acc v a).1 ha with rfl | ha
      · exact (List.pairwise_cons.1 hrest).1 b hb
      · exact hcross a ha b (List.mem_cons_of_mem _ hb)
  cases l with
  | nil => simp [libstdcxx.insertion_sort]
  | cons x rest =>
    exact hfold rest [x] (List.pairwise_singleton _ _) (List.pairwise_cons.1 hids).2
      (by
        intro a ha b hb
        simp only [List.mem_singleton] at ha
        subst ha
        exact (List.pairwise_cons.1 hids).1 b hb)

/-- On at most 16 elements the library's sort is its insertion sort. -/
theorem std_sort_small (l : List (Int × Int)) (h : l.length ≤ 16) :
    std_sort_libstdcxx l = libstdcxx.insertion_sort sortComparator l := by
  unfold std_sort_libstdcxx libstdcxx.sort
  cases l with
  | nil => simp [libstdcxx.insertion_sort]
  | cons x rest =>
    have hloop : ∀ d : Nat,
        libstdcxx.introsort_loop sortComparator d (x :: rest) = x :: rest := by
      intro d
      have hnot : ¬ (x :: rest).length > libstdcxx.S_threshold := by
        simp only [libstdcxx.S_threshold]; omega
      cases d <;> simp only [libstdcxx.introsort_loop, if_neg hnot]
    simp only [hloop]
    unfold libstdcxx.final_insertion_sort
    have hnot : ¬ (x :: rest).length > libstdcxx.S_threshold := by
      simp only [libstdcxx.S_threshold]; omega
    rw [if_neg hnot]

theorem buildTrafficLights_ascending (n : Int) (totals : List Int) :
    (consumerFunction.buildTrafficLights n totals).Pairwise (fun a b => a.1 < b.1) := by
  unfold consumerFunction.buildTrafficLights
  rw [List.pairwise_map]
  refine (List.pairwise_lt_range n.toNat).imp ?_
  intro a b hab
  simp only
  omega

/-! ### The library's sort rearranges its input -/

theorem set_perm_cons {α : Type} (l : List α) (i : Nat) (x y : α) (h : l[i]? = some x) :
    (y :: l).Perm (x :: l.set i y) := by
  induction l generalizing i with
  | nil => simp at h
  | cons a t ih =>
    cases i with
    | zero =>
      simp only [List.getElem?_cons_zero, Option.some.injEq] at h
      subst h
      exact List.Perm.swap _ _ _
    | succ k =>
      simp only [List.getElem?_cons_succ] at h
      simp only [List.set_cons_succ]
      exact (List.Perm.swap a y t).trans (((ih k h).cons a).trans (List.Perm.swap x a _))

theorem swap_perm {α : Type} (l : List α) (i j : Nat) (x y : α)
    (hi : l[i]? = some x) (hj : l[j]? = some y) : ((l.set i y).set j x).Perm l := by
  have hlt : i < l.length := (List.getElem?_eq_some_iff.1 hi).1
  have h1 : (l.set i y)[j]? = some y := by
    by_cases hij : i = j
    · subst hij
      rw [List.getElem?_set_self hlt]
    · rw [List.getElem?_set_ne hij]; exact hj
  have p1 := set_perm_cons l i x y hi
  have p2 := set_perm_cons (l.set i y) j y x h1
  exact ((p1.trans p2).cons_inv).symm

theorem iter_swap_perm {α : Type} (l : List α) (i j : Nat) :
    (libstdcxx.iter_swap l i j).Perm l := by
  unfold libstdcxx.iter_swap
  split
  · rename_i x y hx hy
    exact swap_perm l i j x y hx hy
  · exact List.Perm.refl _

theorem hole_move_perm {α : Type} (l : List α) (h c : Nat) (p v : α)
    (hh : h < l.length) (hc : l[c]? = some p) :
    ((l.set h p).set c v).Perm (l.set h v) := by
  by_cases hch : c = h
  · subst hch
    rw [List.set_set]
  · have hL1 : (l.set h v)[h]? = some v := List.getElem?_set_self hh
    have hL2 : (l.set h v)[c]? = some p := by
      rw [List.getElem?_set_ne (Ne.symm hch)]; exact hc
    have := swap_perm (l.set h v) h c v p hL1 hL2
    rwa [List.set_set] at this

theorem move_median_to_first_perm {α : Type} (comp : α → α → Bool) (l : List α)
    (result a b c : Nat) : (libstdcxx.move_median_to_first comp l result a b c).Perm l := by
  unfold libstdcxx.move_median_to_first
  split
  · split_ifs <;> exact iter_swap_perm _ _ _
  · exact List.Perm.refl _

theorem unguarded_partition_perm {α : Type} (comp : α → α → Bool) (pivot : α)
    (fuel : Nat) (l : List α) (first last : Nat) :
    (libstdcxx.unguarded_partition comp pivot fuel l first last).1.Perm l := by
  induction fuel generalizing l first last with
  | zero => exact List.Perm.refl _
  | succ fuel ih =>
    simp only [libstdcxx.unguarded_partition]
    split_ifs
    · exact (ih _ _ _).trans (iter_swap_perm _ _ _)
    · exact List.Perm.refl _

theorem unguarded_partition_pivot_perm {α : Type} (comp : α → α → Bool) (l : List α) :
    (libstdcxx.unguarded_partition_pivot comp l).1.Perm l := by
  unfold libstdcxx.unguarded_partition_pivot
  simp only []
  split
  · exact move_median_to_first_perm _ _ _ _ _ _
  · exact (unguarded_partition_perm _ _ _ _ _ _).trans (move_median_to_first_perm _ _ _ _ _ _)

theorem push_heap_perm {α : Type} (comp : α → α → Bool) (fuel : Nat) (l : List α)
    (holeIndex topIndex : Nat) (value : α) (hh : holeIndex < l.length) :
    (libstdcxx.push_heap comp fuel l holeIndex topIndex value).Perm (l.set holeIndex value) := by
  induction fuel generalizing l holeIndex with
  | zero => exact List.Perm.refl _
  | succ fuel ih =>
    simp only [libstdcxx.push_heap]
    split
    · rename_i p hp
      split_ifs
      · have hlt : (holeIndex - 1) / 2 < (l.set holeIndex p).length := by
          rw [List.length_set]
          exact (List.getElem?_eq_some_iff.1 hp).1
        exact (ih _ _ hlt).trans (hole_move_perm l holeIndex _ p value hh hp)
      · exact List.Perm.refl _
    · exact List.Perm.refl _

theorem adjust_heap_loop_perm {α : Type} (comp : α → α → Bool) (len fuel : Nat) (l : List α)
    (holeIndex secondChild : Nat) (hh : holeIndex < l.length) :
    (libstdcxx.adjust_heap_loop comp len fuel l holeIndex secondChild).2.1
        < (libstdcxx.adjust_heap_loop comp len fuel l holeIndex secondChild).1.length ∧
    ∀ value : α,
      ((libstdcxx.adjust_heap_loop comp len fuel l holeIndex secondChild).1.set
        (libstdcxx.adjust_heap_loop comp len fuel l holeIndex secondChild).2.1 value).Perm
        (l.set holeIndex value) := by
  induction fuel generalizing l holeIndex secondChild with
  | zero => exact ⟨hh, fun _ => List.Perm.refl _⟩
  | succ fuel ih =>
    simp only [libstdcxx.adjust_heap_loop]
    split_ifs
    · split
      · rename_i v hv
        have hlen : libstdcxx.larger_child comp l secondChild < (l.set holeIndex v).length := by
          rw [List.length_set]; exact (List.getElem?_eq_some_iff.1 hv).1
        obtain ⟨h1, h2⟩ := ih (l.set holeIndex v) (libstdcxx.larger_child comp l secondChild)
          (libstdcxx.larger_child comp l secondChild) hlen
        exact ⟨h1, fun value =>
          (h2 value).trans (hole_move_perm l holeIndex _ v value hh hv)⟩
      · exact ⟨hh, fun _ => List.Perm.refl _⟩
    · exact ⟨hh, fun _ => List.Perm.refl _⟩

theorem adjust_heap_perm {α : Type} (comp : α → α → Bool) (l : List α) (holeIndex len : Nat)
    (value : α) (hh : holeIndex < l.length) :
    (libstdcxx.adjust_heap comp l holeIndex len value).Perm (l.set holeIndex value) := by
  unfold libstdcxx.adjust_heap
  have hloop := adjust_heap_loop_perm comp len len l holeIndex holeIndex hh
  generalize libstdcxx.adjust_heap_loop comp len len l holeIndex holeIndex = res at hloop
  obtain ⟨l1, hole1, sc1⟩ := res
  simp only at hloop ⊢
  split_ifs
  · split
    · rename_i v hv
      have hlt : 2 * (sc1 + 1) - 1 < (l1.set hole1 v).length := by
        rw [List.length_set]; exact (List.getElem?_eq_some_iff.1 hv).1
      exact ((push_heap_perm comp len _ _ holeIndex value hlt).trans
        (hole_move_perm l1 hole1 _ v value hloop.1 hv)).trans (hloop.2 value)
    · exact (push_heap_perm comp len l1 hole1 holeIndex value hloop.1).trans (hloop.2 value)
  · exact (push_heap_perm comp len l1 hole1 holeIndex value hloop.1).trans (hloop.2 value)

theorem pop_heap_perm {α : Type} (comp : α → α → Bool) (l : List α) (last result : Nat) :
    (libstdcxx.pop_heap comp l last result).Perm l := by
  unfold libstdcxx.pop_heap
  split
  · rename_i value front hv hf
    have h0 : 0 < (l.set result front).length := by
      rw [List.length_set]; exact (List.getElem?_eq_some_iff.1 hf).1
    exact (adjust_heap_perm comp _ 0 last value h0).trans (swap_perm l result 0 value front hv hf)
  · exact List.Perm.refl _

theorem set_self_of_getElem? {α : Type} (l : List α) (i : Nat) (x : α) (h : l[i]? = some x) :
    l.set i x = l := by
  induction l generalizing i with
  | nil => rfl
  | cons a t ih =>
    cases i with
    | zero =>
      simp only [List.getElem?_cons_zero, Option.some.injEq] at h
      subst h; rfl
    | succ k =>
      simp only [List.getElem?_cons_succ] at h
      simp only [List.set_cons_succ, ih k h]

theorem make_heap_loop_perm {α : Type} (comp : α → α → Bool) (len fuel : Nat) (l : List α)
    (parent : Nat) : (libstdcxx.make_heap_loop comp len fuel l parent).Perm l := by
  induction fuel generalizing l parent with
  | zero => exact List.Perm.refl _
  | succ fuel ih =>
    simp only [libstdcxx.make_heap_loop]
    split
    · rename_i value hv
      have hstep : (libstdcxx.adjust_heap comp l parent len value).Perm l := by
        have := adjust_heap_perm comp l parent len value (List.getElem?_eq_some_iff.1 hv).1
        rwa [set_self_of_getElem? l parent value hv] at this
      split_ifs
      · exact hstep
      · exact (ih _ _).trans hstep
    · exact List.Perm.refl _

theorem make_heap_perm {α : Type} (comp : α → α → Bool) (l : List α) :
    (libstdcxx.make_heap comp l).Perm l := by
  unfold libstdcxx.make_heap
  split_ifs
  · exact List.Perm.refl _
  · exact make_heap_loop_perm _ _ _ _ _

theorem sort_heap_perm {α : Type} (comp : α → α → Bool) (fuel : Nat) (l : List α) (last : Nat) :
    (libstdcxx.sort_heap comp fuel l last).Perm l := by
  induction fuel generalizing l last with
  | zero => exact List.Perm.refl _
  | succ fuel ih =>
    simp only [libstdcxx.sort_heap]
    split_ifs
    · exact (ih _ _).trans (pop_heap_perm _ _ _ _)
    · exact List.Perm.refl _

theorem heap_sort_range_perm {α : Type} (comp : α → α → Bool) (l : List α) :
    (libstdcxx.heap_sort_range comp l).Perm l := by
  unfold libstdcxx.heap_sort_range
  exact (sort_heap_perm _ _ _ _).trans (make_heap_perm _ _)

theorem introsort_loop_perm {α : Type} (comp : α → α → Bool) (depth_limit : Nat) (l : List α) :
    (libstdcxx.introsort_loop comp depth_limit l).Perm l := by
  induction depth_limit generalizing l with
  | zero =>
    simp only [libstdcxx.introsort_loop]
    split_ifs
    · exact heap_sort_range_perm _ _
    · exact List.Perm.refl _
  | succ d ih =>
    simp only [libstdcxx.introsort_loop]
    split_ifs
    · have hp := unguarded_partition_pivot_perm comp l
      generalize libstdcxx.unguarded_partition_pivot comp l = res at hp
      obtain ⟨l1, cut⟩ := res
      simp only at hp ⊢
      refine (List.Perm.append (ih _) (ih _)).trans ?_
      rw [List.take_append_drop]
      exact hp
    · exact List.Perm.refl _

theorem unguarded_linear_insert_perm {α : Type} (comp : α → α → Bool) (val : α)
    (pre : List α) : (libstdcxx.unguarded_linear_insert comp val pre).Perm (pre ++ [val]) := by
  unfold libstdcxx.unguarded_linear_insert
  have hsplit : pre = (pre.reverse.dropWhile (fun x => comp val x)).reverse ++
      (pre.reverse.takeWhile (fun x => comp val x)).reverse := by
    rw [← List.reverse_append, List.takeWhile_append_dropWhile, List.reverse_reverse]
  conv_rhs => rw [hsplit]
  rw [List.append_assoc]
  exact List.Perm.append_left _ (List.perm_append_singleton _ _).symm

theorem insertion_step_perm {α : Type} (comp : α → α → Bool) (pre : List α) (val : α) :
    (libstdcxx.insertion_step comp pre val).Perm (pre ++ [val]) := by
  unfold libstdcxx.insertion_step
  cases pre with
  | nil => exact List.Perm.refl _
  | cons first t =>
    simp only []
    split_ifs
    · exact (List.perm_append_singleton _ _).symm
    · exact unguarded_linear_insert_perm _ _ _

theorem insertion_sort_perm {α : Type} (comp : α → α → Bool) (l : List α) :
    (libstdcxx.insertion_sort comp l).Perm l := by
  have hfold : ∀ (rest acc : List α),
      (rest.foldl (libstdcxx.insertion_step comp) acc).Perm (acc ++ rest) := by
    intro rest
    induction rest with
    | nil => intro acc; simp
    | cons v rest ih =>
      intro acc
      refine (ih _).trans ?_
      have := (insertion_step_perm comp acc v).append_right rest
      simpa using this
  cases l with
  | nil => exact List.Perm.refl _
  | cons x rest => exact hfold rest [x]

theorem unguarded_insertion_sort_perm {α : Type} (comp : α → α → Bool) (pre rest : List α) :
    (libstdcxx.unguarded_insertion_sort comp pre rest).Perm (pre ++ rest) := by
  unfold libstdcxx.unguarded_insertion_sort
  induction rest generalizing pre with
  | nil => simp
  | cons v rest ih =>
    refine (ih _).trans ?_
    have := (unguarded_linear_insert_perm comp v pre).append_right rest
    simpa using this

theorem final_insertion_sort_perm {α : Type} (comp : α → α → Bool) (l : List α) :
    (libstdcxx.final_insertion_sort comp l).Perm l := by
  unfold libstdcxx.final_insertion_sort
  split_ifs
  · refine (unguarded_insertion_sort_perm _ _ _).trans ?_
    refine ((insertion_sort_perm comp _).append_right _).trans ?_
    rw [List.take_append_drop]
  · exact insertion_sort_perm _ _

theorem sort_perm {α : Type} (comp : α → α → Bool) (l : List α) :
    (libstdcxx.sort comp l).Perm l := by
  unfold libstdcxx.sort
  cases l with
  | nil => exact List.Perm.refl _
  | cons x rest =>
    exact (final_insertion_sort_perm _ _).trans (introsort_loop_perm _ _ _)

/-- The `std::sort` of libstdc++, called with the consumer's comparator, meets
the contract of the standard: every theorem stated for a sort meeting the
contract holds for the sort the program runs. -/
theorem std_sort_libstdcxx_contract : StdSortContract sortComparator std_sort_libstdcxx :=
  fun l => ⟨sort_perm sortComparator l, (pairwise_comparator_iff _).2 (std_sort_sorted l)⟩

/-- C3, amended. For every vector of per-sensor totals and every `top_n`, the
report the code prints lists the sensors in non-increasing order of total. With
at most 16 sensors, where the library's `std::sort` is an insertion sort, ties
come in ascending sensor id; in particular for totals 10, 25, 25, 5, 0 and
`top_n = 3` the report is exactly `[(1,25),(2,25),(0,10)]`. With more than 16
sensors the order among equal totals is whatever the sort's partitioning leaves,
not the ascending id order. -/
theorem ranking_descending :
    (∀ (n top_n : Int) (totals : List Int), (totals.length : Int) = n →
      ((consumerFunction.closeWindow std_sort_libstdcxx n top_n totals).printed).Pairwise
        (fun a b => b.2 ≤ a.2)) ∧
    (∀ (n top_n : Int) (totals : List Int), (totals.length : Int) = n → n ≤ 16 →
      RankedWithTieBreak
        (consumerFunction.closeWindow std_sort_libstdcxx n top_n totals).printed) ∧
    (consumerFunction.closeWindow std_sort_libstdcxx 5 3 [10, 25, 25, 5, 0]).printed
      = [(1, 25), (2, 25), (0, 10)] := by
  refine ⟨?_, ?_, by decide⟩
  · intro n top_n totals _
    rw [printed_eq]
    exact (std_sort_sorted _).sublist (List.take_sublist _ _)
  · intro n top_n totals _ hn
    unfold RankedWithTieBreak
    rw [printed_eq]
    have hlen : (consumerFunction.buildTrafficLights n totals).length ≤ 16 := by
      rw [buildTrafficLights_length]; omega
    rw [std_sort_small _ hlen]
    exact (insertion_sort_ranked _ (buildTrafficLights_ascending n totals)).sublist
      (List.take_sublist _ _)

/-- The specification's example, five sensors with totals 10, 25, 25, 5, 0 and
`top_n = 3`: the tie between sensors 1 and 2 comes out in ascending id order. -/
theorem ranking_descending_witness :
    (((([10, 25, 25, 5, 0] : List Int).length : Int) = 5) ∧ (5 : Int) ≤ 16) ∧
    RankedWithTieBreak
      (consumerFunction.closeWindow std_sort_libstdcxx 5 3 [10, 25, 25, 5, 0]).printed :=
  ⟨⟨by decide, by decide⟩,
    ranking_descending.2.1 5 3 [10, 25, 25, 5, 0] (by decide) (by decide)⟩

/-- C4. Top-N selection: with at least one sensor and `top_n ≥ 1`, the report
has exactly `min(top_n, sensorCount)` entries; each entry is a sensor id of the
run with that sensor's total; no id occurs twice; the totals are
non-increasing; and every sensor left out has a total no greater than that of
any sensor listed. -/
theorem top_n_selection (std_sort : List (Int × Int) → List (Int × Int))
    (h : StdSortContract sortComparator std_sort)
    (n top_n : Int) (totals : List Int)
    (hn : 1 ≤ n) (ht : 1 ≤ top_n) (hlen : (totals.length : Int) = n) :
    (((consumerFunction.closeWindow std_sort n top_n totals).printed).length : Int)
      = min top_n n ∧
    (∀ e ∈ (consumerFunction.closeWindow std_sort n top_n totals).printed,
      0 ≤ e.1 ∧ e.1 < n ∧ totals[e.1.toNat]? = some e.2) ∧
    (((consumerFunction.closeWindow std_sort n top_n totals).printed).map Prod.fst).Nodup ∧
    ((consumerFunction.closeWindow std_sort n top_n totals).printed).Pairwise
      (fun a b => b.2 ≤ a.2) ∧
    (∀ id : Int, 0 ≤ id → id < n →
      id ∉ ((consumerFunction.closeWindow std_sort n top_n totals).printed).map Prod.fst →
      ∀ e ∈ (consumerFunction.closeWindow std_sort n top_n totals).printed,
        totals[id.toNat]? = some (totals.getD id.toNat 0) ∧ totals.getD id.toNat 0 ≤ e.2) := by
  have hget : ∀ id : Int, 0 ≤ id → id < n →
      totals[id.toNat]? = some (totals.getD id.toNat 0) := by
    intro id h0 h1
    have hlt : id.toNat < totals.length := by omega
    simp [List.getD_eq_getElem?_getD, List.getElem?_eq_getElem hlt]
  refine ⟨?_, ?_, ?_, printed_sorted std_sort h n top_n totals, ?_⟩
  · rw [printed_eq, List.length_take, (h _).1.length_eq, buildTrafficLights_length]
    omega
  · intro e he
    obtain ⟨h0, h1, h2⟩ := printed_entry std_sort h n top_n totals e he
    exact ⟨h0, h1, by rw [h2]; exact hget e.1 h0 h1⟩
  · rw [printed_eq]
    have hnd : ((std_sort (consumerFunction.buildTrafficLights n totals)).map Prod.fst).Nodup :=
      (((h _).1.map Prod.fst).nodup_iff).2 (buildTrafficLights_ids n totals)
    exact hnd.sublist ((List.take_sublist _ _).map _)
  · intro id h0 h1 hout e he
    refine ⟨hget id h0 h1, ?_⟩
    rw [printed_eq] at hout he
    have hmem := mem_sorted_of_id std_sort h n totals id h0 h1
    have hs := contract_sorted std_sort h (consumerFunction.buildTrafficLights n totals)
    rw [← List.take_append_drop top_n.toNat
      (std_sort (consumerFunction.buildTrafficLights n totals))] at hmem hs
    rcases List.mem_append.1 hmem with hin | hin
    · exact absurd (List.mem_map.2 ⟨_, hin, rfl⟩) hout
    · exact (List.pairwise_append.1 hs).2.2 e he _ hin

/-- The selection at the configuration of `main`: five sensors, top three. -/
theorem top_n_selection_witness :
    StdSortContract sortComparator sortKeepingTies ∧
    (((consumerFunction.closeWindow sortKeepingTies 5 3 [10, 25, 25, 5, 0]).printed).length : Int)
      = min 3 5 :=
  ⟨sortKeepingTies_contract,
   (top_n_selection sortKeepingTies sortKeepingTies_contract 5 3 [10, 25, 25, 5, 0]
      (by decide) (by decide) (by decide)).1⟩

/-- C5, as stated, fails: with five sensors and `top_n = 3` the report for the
totals 10, 25, 25, 5, 0 has three entries, and sensors 3 and 4 are not in it. -/
theorem report_completeness_counterexample :
    StdSortContract sortComparator sortKeepingTies ∧
    (consumerFunction.closeWindow sortKeepingTies 5 3 [10, 25, 25, 5, 0]).printed
      = [(1, 25), (2, 25), (0, 10)] ∧
    ((0 : Int) ≤ 3 ∧ (3 : Int) < 5) ∧
    (3 : Int) ∉
      ((consumerFunction.closeWindow sortKeepingTies 5 3 [10, 25, 25, 5, 0]).printed).map
        Prod.fst := by
  have hp : (consumerFunction.closeWindow sortKeepingTies 5 3 [10, 25, 25, 5, 0]).printed
      = [(1, 25), (2, 25), (0, 10)] := by decide
  refine ⟨sortKeepingTies_contract, hp, by decide, ?_⟩
  rw [hp]; decide

/-- C5, amended. Every entry of every report has a sensor id in
`[0, sensorCount)`; every sensor id in that range, zero totals included, is in
the sorted vector `trafficLights` the report is taken from; the report is the
first `top_n` entries of that vector, and lists every sensor when
`top_n ≥ sensorCount`. -/
theorem report_entries_in_range (std_sort : List (Int × Int) → List (Int × Int))
    (h : StdSortContract sortComparator std_sort)
    (n top_n : Int) (totals : List Int) (hlen : (totals.length : Int) = n) :
    (∀ e ∈ (consumerFunction.closeWindow std_sort n top_n totals).printed,
      0 ≤ e.1 ∧ e.1 < n) ∧
    (∀ id : Int, 0 ≤ id → id < n →
      ∃ total, totals[id.toNat]? = some total ∧
        (id, total) ∈ (consumerFunction.closeWindow std_sort n top_n totals).trafficLights) ∧
    (consumerFunction.closeWindow std_sort n top_n totals).printed =
      ((consumerFunction.closeWindow std_sort n top_n totals).trafficLights).take top_n.toNat ∧
    (n ≤ top_n → ∀ id : Int, 0 ≤ id → id < n →
      ∃ total, totals[id.toNat]? = some total ∧
        (id, total) ∈ (consumerFunction.closeWindow std_sort n top_n totals).printed) := by
  have hget : ∀ id : Int, 0 ≤ id → id < n →
      totals[id.toNat]? = some (totals.getD id.toNat 0) := by
    intro id h0 h1
    have hlt : id.toNat < totals.length := by omega
    simp [List.getD_eq_getElem?_getD, List.getElem?_eq_getElem hlt]
  refine ⟨?_, ?_, rfl, ?_⟩
  · intro e he
    obtain ⟨h0, h1, _⟩ := printed_entry std_sort h n top_n totals e he
    exact ⟨h0, h1⟩
  · intro id h0 h1
    exact ⟨_, hget id h0 h1, mem_sorted_of_id std_sort h n totals id h0 h1⟩
  · intro hle id h0 h1
    refine ⟨_, hget id h0 h1, ?_⟩
    rw [printed_eq, List.take_of_length_le]
    · exact mem_sorted_of_id std_sort h n totals id h0 h1
    · rw [(h _).1.length_eq, buildTrafficLights_length]
      omega

/-- The amended completeness statement at five sensors with `top_n = 5`: the
silent sensor 4 is listed with total 0. -/
theorem report_entries_in_range_witness :
    StdSortContract sortComparator sortKeepingTies ∧
    ∃ total, ([10, 25, 25, 5, 0] : List Int)[(4 : Int).toNat]? = some total ∧
      ((4 : Int), total) ∈
        (consumerFunction.closeWindow sortKeepingTies 5 5 [10, 25, 25, 5, 0]).printed :=
  ⟨sortKeepingTies_contract,
   (report_entries_in_range sortKeepingTies sortKeepingTies_contract 5 5
      [10, 25, 25, 5, 0] (by decide)).2.2.2 (by decide) 4 (by decide) (by decide)⟩

/-! ## Accumulation, window close and reset -/

theorem wrapInt32_of_fits (x : Int) (h : fitsInt32 x) : wrapInt32 x = x := by
  unfold fitsInt32 at h
  unfold wrapInt32
  omega

theorem wrapInt32_fits (x : Int) : fitsInt32 (wrapInt32 x) := by
  unfold fitsInt32 wrapInt32
  omega

theorem wrapInt32_congr (x : Int) : ∃ k : Int, wrapInt32 x = x + 4294967296 * k := by
  refine ⟨-((x + 2147483648) / 4294967296), ?_⟩
  unfold wrapInt32
  omega

theorem accumulate_eq (trafficCount : List Int) (data : TrafficSignalData)
    (h0 : 0 ≤ data.light_id) (h1 : data.light_id < trafficCount.length) :
    consumerFunction.accumulate trafficCount data =
      some (trafficCount.set data.light_id.toNat
        (wrapInt32 (trafficCount.getD data.light_id.toNat 0 + data.num_cars))) := by
  have hlt : data.light_id.toNat < trafficCount.length := by omega
  have hneg : ¬ data.light_id < 0 := by omega
  simp [consumerFunction.accumulate, hneg, List.getD_eq_getElem?_getD,
    List.getElem?_eq_getElem hlt]

theorem step_eq (std_sort : List (Int × Int) → List (Int × Int))
    (n top_n : Int) (st : ConsumerState) (data : TrafficSignalData) (now : Int)
    (tc : List Int) (hacc : consumerFunction.accumulate st.trafficCount data = some tc) :
    consumerFunction.step std_sort n top_n st data now =
      if now - st.last_hour ≥ 3600 then
        some ({ trafficCount := List.replicate n.toNat 0, last_hour := now },
              some (consumerFunction.closeWindow std_sort n top_n tc))
      else some ({ trafficCount := tc, last_hour := st.last_hour }, none) := by
  simp [consumerFunction.step, hacc]

theorem getD_set_eq (l : List Int) (i j : Nat) (v : Int) (hi : i < l.length) :
    (l.set i v).getD j 0 = if j = i then v else l.getD j 0 := by
  simp only [List.getD_eq_getElem?_getD, List.getElem?_set]
  by_cases hji : j = i
  · subst hji
    simp [hi]
  · have : ¬ i = j := fun h => hji h.symm
    simp [hji, this]

theorem getD_replicate_zero (k j : Nat) : (List.replicate k (0 : Int)).getD j 0 = 0 := by
  simp only [List.getD_eq_getElem?_getD, List.getElem?_replicate]
  split <;> simp

/-- C10, as stated, fails: with a total of 2147483647 for sensor 0 and a reading
of 1 car for it, the `int` statement `trafficCount[0] += 1` stores -2147483648,
not the previous value plus 1. -/
theorem accumulation_overflow_counterexample :
    ((0 : Int) ≤ (TrafficSignalData.mk 0 0 1).light_id ∧
      (TrafficSignalData.mk 0 0 1).light_id < (([2147483647] : List Int).length : Int)) ∧
    consumerFunction.accumulate [2147483647] (.mk 0 0 1) = some [-2147483648] ∧
    (-2147483648 : Int) ≠ 2147483647 + (TrafficSignalData.mk 0 0 1).num_cars := by
  refine ⟨by decide, by decide, by decide⟩

/-- C10, amended. Accumulation step: for a reading whose sensor id `s` is an
index of the totals vector and whose count is `c`, the statement
`trafficCount[data.light_id] += data.num_cars` yields a vector of the same
length in which entry `s` is the `int` sum of its previous value and `c`: that
is the previous value plus `c` whenever this is representable as an `int`, and
differs from it by a multiple of `2^32` otherwise. Every other entry is
unchanged. This vector is what the loop iteration keeps when the window stays
open and what it reports when the window closes. -/
theorem accumulation_step (std_sort : List (Int × Int) → List (Int × Int))
    (n top_n : Int) (st : ConsumerState) (data : TrafficSignalData) (now : Int)
    (h0 : 0 ≤ data.light_id) (h1 : data.light_id < st.trafficCount.length) :
    ∃ tc, consumerFunction.accumulate st.trafficCount data = some tc ∧
      tc.length = st.trafficCount.length ∧
      (∃ old, st.trafficCount[data.light_id.toNat]? = some old ∧
        tc[data.light_id.toNat]? = some (wrapInt32 (old + data.num_cars)) ∧
        (fitsInt32 (old + data.num_cars) →
          tc[data.light_id.toNat]? = some (old + data.num_cars)) ∧
        (∃ k : Int, wrapInt32 (old + data.num_cars)
          = old + data.num_cars + 4294967296 * k)) ∧
      (∀ i : Nat, i ≠ data.light_id.toNat → tc[i]? = st.trafficCount[i]?) ∧
      (now - st.last_hour < 3600 →
        consumerFunction.step std_sort n top_n st data now =
          some ({ trafficCount := tc, last_hour := st.last_hour }, none)) ∧
      (now - st.last_hour ≥ 3600 →
        ∃ st1 r, consumerFunction.step std_sort n top_n st data now = some (st1, some r) ∧
          r.totals = tc) := by
  have hlt : data.light_id.toNat < st.trafficCount.length := by omega
  refine ⟨_, accumulate_eq st.trafficCount data h0 h1, by simp, ?_, ?_, ?_, ?_⟩
  · have hset : (st.trafficCount.set data.light_id.toNat
        (wrapInt32 (st.trafficCount.getD data.light_id.toNat 0 + data.num_cars)))[
          data.light_id.toNat]?
        = some (wrapInt32 (st.trafficCount.getD data.light_id.toNat 0 + data.num_cars)) := by
      rw [List.getElem?_set]
      simp [hlt]
    refine ⟨st.trafficCount.getD data.light_id.toNat 0, ?_, hset, ?_, wrapInt32_congr _⟩
    · simp [List.getD_eq_getElem?_getD, List.getElem?_eq_getElem hlt]
    · intro hfit
      rw [hset, wrapInt32_of_fits _ hfit]
  · intro i hi
    have : ¬ data.light_id.toNat = i := fun h => hi h.symm
    simp [List.getElem?_set, this]
  · intro hopen
    rw [step_eq std_sort n top_n st data now _ (accumulate_eq st.trafficCount data h0 h1)]
    have : ¬ now - st.last_hour ≥ 3600 := by omega
    simp [this]
  · intro hclose
    rw [step_eq std_sort n top_n st data now _ (accumulate_eq st.trafficCount data h0 h1)]
    rw [if_pos hclose]
    exact ⟨_, _, rfl, rfl⟩

/-- The accumulation of a reading of 7 cars for sensor 1 into the totals 10, 25, 25. -/
theorem accumulation_step_witness :
    ((0 : Int) ≤ (TrafficSignalData.mk 0 1 7).light_id ∧
      (TrafficSignalData.mk 0 1 7).light_id < (([10, 25, 25] : List Int).length : Int)) ∧
    ∃ tc, consumerFunction.accumulate [10, 25, 25] (.mk 0 1 7) = some tc ∧
      tc.length = 3 ∧
      (∃ old, ([10, 25, 25] : List Int)[(1 : Int).toNat]? = some old ∧
        tc[(1 : Int).toNat]? = some (old + 7)) := by
  obtain ⟨tc, hacc, hlen, ⟨old, hold, _, hfit, _⟩, _⟩ :=
    accumulation_step std_sort_libstdcxx 3 2 ⟨[10, 25, 25], 0⟩ (.mk 0 1 7) 100
      (by decide) (by decide)
  refine ⟨by decide, tc, hacc, hlen, old, hold, hfit ?_⟩
  have h25 : old = 25 := by
    have : ([10, 25, 25] : List Int)[(1 : Int).toNat]? = some 25 := by decide
    have hold1 : ([10, 25, 25] : List Int)[(1 : Int).toNat]? = some old := hold
    rw [this] at hold1
    exact (Option.some.inj hold1).symm
  rw [h25]
  decide

/-- C6. Reset correctness: when the processing of a reading closes the window,
the iteration emits a report and leaves a totals vector of `sensorCount`
entries, all 0, with `last_hour` equal to the clock value read in that
iteration. The next reading processed therefore counts for the new window
only: after its accumulation the entry of its sensor is exactly its count and
every other entry is 0, and these are the totals the loop keeps (window still
open) or reports (window closing again). -/
theorem reset_correctness (std_sort : List (Int × Int) → List (Int × Int))
    (n top_n : Int) (st : ConsumerState) (data : TrafficSignalData) (now : Int)
    (hlen : (st.trafficCount.length : Int) = n)
    (h0 : 0 ≤ data.light_id) (h1 : data.light_id < n)
    (hclose : now - st.last_hour ≥ 3600) :
    ∃ st1 r, consumerFunction.step std_sort n top_n st data now = some (st1, some r) ∧
      (st1.trafficCount.length : Int) = n ∧
      (∀ i : Nat, i < st1.trafficCount.length → st1.trafficCount[i]? = some 0) ∧
      st1.last_hour = now ∧
      ∀ (next : TrafficSignalData) (now2 : Int), 0 ≤ next.light_id → next.light_id < n →
        ∃ tc, consumerFunction.accumulate st1.trafficCount next = some tc ∧
          (tc.length : Int) = n ∧
          tc[next.light_id.toNat]? = some next.num_cars ∧
          (∀ i : Nat, i < tc.length → i ≠ next.light_id.toNat → tc[i]? = some 0) ∧
          (now2 - now < 3600 →
            consumerFunction.step std_sort n top_n st1 next now2 =
              some ({ trafficCount := tc, last_hour := now }, none)) ∧
          (now2 - now ≥ 3600 →
            ∃ st2 r2, consumerFunction.step std_sort n top_n st1 next now2
              = some (st2, some r2) ∧ r2.totals = tc) := by
  have hacc := accumulate_eq st.trafficCount data h0 (by omega)
  rw [step_eq std_sort n top_n st data now _ hacc, if_pos hclose]
  refine ⟨_, _, rfl, ?_, ?_, rfl, ?_⟩
  · simp only [List.length_replicate]; omega
  · intro i hi
    simp only [List.length_replicate] at hi
    simp [List.getElem?_replicate, hi]
  · intro next now2 g0 g1
    have hk : next.light_id.toNat < n.toNat := by omega
    have hacc2 := accumulate_eq (List.replicate n.toNat (0 : Int)) next g0
      (by simp only [List.length_replicate]; omega)
    refine ⟨_, hacc2, ?_, ?_, ?_, ?_, ?_⟩
    · simp only [List.length_set, List.length_replicate]; omega
    · rw [getD_replicate_zero, zero_add, wrapInt32_of_fits _ next.num_cars_int,
        List.getElem?_set]
      simp [hk]
    · intro i hi hne
      simp only [List.length_set, List.length_replicate] at hi
      have : ¬ next.light_id.toNat = i := fun h => hne h.symm
      rw [List.getElem?_set, if_neg this, List.getElem?_replicate, if_pos hi]
    · intro hopen
      rw [step_eq std_sort n top_n _ next now2 _ hacc2]
      have : ¬ now2 - now ≥ 3600 := by omega
      simp [this]
    · intro hclose2
      rw [step_eq std_sort n top_n _ next now2 _ hacc2]
      simp only []
      rw [if_pos hclose2]
      exact ⟨_, _, rfl, rfl⟩

/-- A window of three sensors closed by a reading one hour after its start. -/
theorem reset_correctness_witness :
    ∃ st1 r, consumerFunction.step sortKeepingTies 3 2 ⟨[10, 25, 25], 0⟩ (.mk 3600 1 7) 3600
        = some (st1, some r) ∧
      (st1.trafficCount.length : Int) = 3 ∧
      (∀ i : Nat, i < st1.trafficCount.length → st1.trafficCount[i]? = some 0) ∧
      st1.last_hour = 3600 ∧
      ∀ (next : TrafficSignalData) (now2 : Int), 0 ≤ next.light_id → next.light_id < 3 →
        ∃ tc, consumerFunction.accumulate st1.trafficCount next = some tc ∧
          (tc.length : Int) = 3 ∧
          tc[next.light_id.toNat]? = some next.num_cars ∧
          (∀ i : Nat, i < tc.length → i ≠ next.light_id.toNat → tc[i]? = some 0) ∧
          (now2 - 3600 < 3600 →
            consumerFunction.step sortKeepingTies 3 2 st1 next now2 =
              some ({ trafficCount := tc, last_hour := 3600 }, none)) ∧
          (now2 - 3600 ≥ 3600 →
            ∃ st2 r2, consumerFunction.step sortKeepingTies 3 2 st1 next now2
              = some (st2, some r2) ∧ r2.totals = tc) :=
  reset_correctness sortKeepingTies 3 2 ⟨[10, 25, 25], 0⟩ (.mk 3600 1 7) 3600
    (by decide) (by decide) (by decide) (by decide)

/-! ## Conservation of counts across windows -/

theorem countFor_cons (s : Nat) (d : TrafficSignalData) (rest : List TrafficSignalData)
    (h0 : 0 ≤ d.light_id) :
    countFor (s : Int) (d :: rest) =
      (if s = d.light_id.toNat then d.num_cars else 0) + countFor (s : Int) rest := by
  unfold countFor
  by_cases h : d.light_id = (s : Int)
  · simp [List.filter_cons, h]
  · have : ¬ s = d.light_id.toNat := by omega
    simp [List.filter_cons, h, this]

theorem countFor_append (s : Int) (l1 l2 : List TrafficSignalData) :
    countFor s (l1 ++ l2) = countFor s l1 + countFor s l2 := by
  simp [countFor, List.filter_append, List.map_append, List.sum_append]

theorem countFor_snoc (s : Nat) (window : List TrafficSignalData) (d : TrafficSignalData)
    (h0 : 0 ≤ d.light_id) :
    countFor (s : Int) (window ++ [d]) =
      countFor (s : Int) window + (if s = d.light_id.toNat then d.num_cars else 0) := by
  rw [countFor_append, countFor_cons s d [] h0]
  simp [countFor]

/-- Readings with counts in `[0, 99]`, as `generateTrafficData` makes them, fit
as long as there are at most 21691754 of them. -/
theorem countFor_bounds (s : Int) (l : List TrafficSignalData)
    (h : ∀ d ∈ l, 0 ≤ d.num_cars ∧ d.num_cars ≤ 99) :
    0 ≤ countFor s l ∧ countFor s l ≤ 99 * (l.length : Int) := by
  induction l with
  | nil => simp [countFor]
  | cons d rest ih =>
    have hd := h d (by simp)
    have hrest := ih (fun x hx => h x (List.mem_cons_of_mem _ hx))
    have hsplit : countFor s (d :: rest) = countFor s [d] + countFor s rest :=
      countFor_append s [d] rest
    have hone : countFor s [d] = if d.light_id = s then d.num_cars else 0 := by
      unfold countFor
      by_cases hs : d.light_id = s <;> simp [List.filter_cons, hs]
    rw [hsplit, hone]
    simp only [List.length_cons, Nat.cast_add, Nat.cast_one]
    split <;> omega

theorem sumsFit_of_small (readings : List TrafficSignalData)
    (h : ∀ d ∈ readings, 0 ≤ d.num_cars ∧ d.num_cars ≤ 99)
    (hlen : readings.length ≤ 21691754) : SumsFit readings := by
  intro before stretch after heq s
  have hsub : ∀ d ∈ stretch, 0 ≤ d.num_cars ∧ d.num_cars ≤ 99 := by
    intro d hd
    apply h
    rw [heq]
    simp [hd]
  have hl : stretch.length ≤ readings.length := by
    rw [heq]
    simp only [List.length_append]
    omega
  have hb := countFor_bounds s stretch hsub
  unfold fitsInt32
  omega

theorem sumsFit_tail (window : List TrafficSignalData) (d : TrafficSignalData)
    (rest : List TrafficSignalData) (h : SumsFit (window ++ d :: rest)) :
    SumsFit rest := by
  intro before stretch after heq s
  apply h (window ++ [d] ++ before) stretch after
  rw [heq]
  simp

/-- Over any finite run of the loop with sensor ids inside the vector, started
with the totals of the readings `window` processed since the last reset, and
with all sums representable: the totals reported at the window closes plus the
totals still held account for the totals held at the start plus every count
processed. -/
theorem run_conservation (std_sort : List (Int × Int) → List (Int × Int))
    (n top_n : Int) (inputs : List (TrafficSignalData × Int)) :
    ∀ (st : ConsumerState) (window : List TrafficSignalData),
      (st.trafficCount.length : Int) = n →
      (∀ s : Nat, st.trafficCount.getD s 0 = countFor (s : Int) window) →
      SumsFit (window ++ inputs.map Prod.fst) →
      (∀ x ∈ inputs, 0 ≤ x.1.light_id ∧ x.1.light_id < n) →
      ∃ st1 reports, consumerFunction.run std_sort n top_n st inputs = some (st1, reports) ∧
        (st1.trafficCount.length : Int) = n ∧
        (∀ r ∈ reports, (r.totals.length : Int) = n ∧
          r = consumerFunction.closeWindow std_sort n top_n r.totals) ∧
        ∀ s : Nat,
          (reports.map (fun r => r.totals.getD s 0)).sum + st1.trafficCount.getD s 0
            = st.trafficCount.getD s 0 + countFor (s : Int) (inputs.map Prod.fst) := by
  induction inputs with
  | nil =>
    intro st window hlen _ _ _
    exact ⟨st, [], rfl, hlen, by simp, by simp [countFor]⟩
  | cons x rest ih =>
    intro st window hlen hwin hfit hids
    obtain ⟨data, now⟩ := x
    have hd : 0 ≤ data.light_id ∧ data.light_id < n := hids (data, now) (by simp)
    have hrest : ∀ y ∈ rest, 0 ≤ y.1.light_id ∧ y.1.light_id < n :=
      fun y hy => hids y (List.mem_cons_of_mem _ hy)
    have hlt : data.light_id.toNat < st.trafficCount.length := by
      have := hd.1; have := hd.2; omega
    have hacc := accumulate_eq st.trafficCount data hd.1 (by have := hd.2; omega)
    have hstep := step_eq std_sort n top_n st data now _ hacc
    -- the sum stored for the reading's sensor is representable
    have hsum_fit : fitsInt32
        (st.trafficCount.getD data.light_id.toNat 0 + data.num_cars) := by
      have h1 := hfit [] (window ++ [data]) (rest.map Prod.fst) (by simp)
        ((data.light_id.toNat : Nat) : Int)
      rw [countFor_snoc _ window data hd.1, if_pos rfl, ← hwin] at h1
      exact h1
    have hwrap := wrapInt32_of_fits _ hsum_fit
    -- the accumulated totals are the sums over the window extended by the reading
    have hnew : ∀ s : Nat,
        (st.trafficCount.set data.light_id.toNat
          (wrapInt32 (st.trafficCount.getD data.light_id.toNat 0 + data.num_cars))).getD s 0
        = countFor (s : Int) (window ++ [data]) := by
      intro s
      rw [getD_set_eq _ _ s _ hlt, countFor_snoc s window data hd.1, hwrap]
      by_cases hs : s = data.light_id.toNat
      · rw [if_pos hs, if_pos hs, ← hs, hwin s]
      · rw [if_neg hs, if_neg hs, hwin s, add_zero]
    by_cases hclose : now - st.last_hour ≥ 3600
    · rw [if_pos hclose] at hstep
      obtain ⟨st2, reports, hrun, hlen2, hrep, hsum⟩ :=
        ih { trafficCount := List.replicate n.toNat 0, last_hour := now } []
          (by simp only [List.length_replicate]; omega)
          (by intro s; simp [getD_replicate_zero, countFor])
          (by
            have := sumsFit_tail window data (rest.map Prod.fst) (by simpa using hfit)
            simpa using this)
          hrest
      refine ⟨st2, consumerFunction.closeWindow std_sort n top_n
        (st.trafficCount.set data.light_id.toNat
          (wrapInt32 (st.trafficCount.getD data.light_id.toNat 0 + data.num_cars))) :: reports,
        ?_, hlen2, ?_, ?_⟩
      · simp only [consumerFunction.run, hstep, hrun, Option.toList, List.singleton_append]
      · intro r hr
        rcases List.mem_cons.1 hr with rfl | hr
        · refine ⟨?_, rfl⟩
          simp only [consumerFunction.closeWindow, List.length_set]
          exact hlen
        · exact hrep r hr
      · intro s
        have h1 := hsum s
        simp only [getD_replicate_zero] at h1
        simp only [List.map_cons, List.sum_cons, consumerFunction.closeWindow]
        rw [hnew s, countFor_snoc s window data hd.1, countFor_cons s data _ hd.1, hwin s]
        linarith
    · rw [if_neg hclose] at hstep
      obtain ⟨st2, reports, hrun, hlen2, hrep, hsum⟩ :=
        ih { trafficCount := st.trafficCount.set data.light_id.toNat
                (wrapInt32 (st.trafficCount.getD data.light_id.toNat 0 + data.num_cars)),
             last_hour := st.last_hour } (window ++ [data])
          (by simp only [List.length_set]; exact hlen)
          hnew
          (by simpa using hfit)
          hrest
      refine ⟨st2, reports, ?_, hlen2, hrep, ?_⟩
      · simp only [consumerFunction.run, hstep, hrun, Option.toList, List.nil_append]
      · intro s
        have h1 := hsum s
        simp only [] at h1
        rw [hnew s, countFor_snoc s window data hd.1] at h1
        simp only [List.map_cons]
        rw [countFor_cons s data _ hd.1, hwin s]
        linarith

/-- Over any finite run of the loop with sensor ids inside the vector, the run
is defined, and the reported and held totals account for the totals held at
the start plus every count processed up to a multiple of `2^32`. -/
theorem run_conservation_mod (std_sort : List (Int × Int) → List (Int × Int))
    (n top_n : Int) (inputs : List (TrafficSignalData × Int)) :
    ∀ st : ConsumerState, (st.trafficCount.length : Int) = n →
      (∀ x ∈ inputs, 0 ≤ x.1.light_id ∧ x.1.light_id < n) →
      ∃ st1 reports, consumerFunction.run std_sort n top_n st inputs = some (st1, reports) ∧
        (st1.trafficCount.length : Int) = n ∧
        (∀ r ∈ reports, (r.totals.length : Int) = n ∧
          r = consumerFunction.closeWindow std_sort n top_n r.totals) ∧
        ∀ s : Nat, ∃ k : Int,
          (reports.map (fun r => r.totals.getD s 0)).sum + st1.trafficCount.getD s 0
            = st.trafficCount.getD s 0 + countFor (s : Int) (inputs.map Prod.fst)
              + 4294967296 * k := by
  induction inputs with
  | nil =>
    intro st hlen _
    exact ⟨st, [], rfl, hlen, by simp, fun s => ⟨0, by simp [countFor]⟩⟩
  | cons x rest ih =>
    intro st hlen hids
    obtain ⟨data, now⟩ := x
    have hd : 0 ≤ data.light_id ∧ data.light_id < n := hids (data, now) (by simp)
    have hrest : ∀ y ∈ rest, 0 ≤ y.1.light_id ∧ y.1.light_id < n :=
      fun y hy => hids y (List.mem_cons_of_mem _ hy)
    have hlt : data.light_id.toNat < st.trafficCount.length := by
      have := hd.1; have := hd.2; omega
    have hacc := accumulate_eq st.trafficCount data hd.1 (by have := hd.2; omega)
    have hstep := step_eq std_sort n top_n st data now _ hacc
    obtain ⟨k0, hk0⟩ :=
      wrapInt32_congr (st.trafficCount.getD data.light_id.toNat 0 + data.num_cars)
    have hnew : ∀ s : Nat, ∃ k : Int,
        (st.trafficCount.set data.light_id.toNat
          (wrapInt32 (st.trafficCount.getD data.light_id.toNat 0 + data.num_cars))).getD s 0
        = st.trafficCount.getD s 0 + (if s = data.light_id.toNat then data.num_cars else 0)
          + 4294967296 * k := by
      intro s
      rw [getD_set_eq _ _ s _ hlt]
      by_cases hs : s = data.light_id.toNat
      · refine ⟨k0, ?_⟩
        rw [if_pos hs, if_pos hs, hk0, hs]
      · refine ⟨0, ?_⟩
        rw [if_neg hs, if_neg hs]
        omega
    by_cases hclose : now - st.last_hour ≥ 3600
    · rw [if_pos hclose] at hstep
      obtain ⟨st2, reports, hrun, hlen2, hrep, hsum⟩ :=
        ih { trafficCount := List.replicate n.toNat 0, last_hour := now }
          (by simp only [List.length_replicate]; omega) hrest
      refine ⟨st2, consumerFunction.closeWindow std_sort n top_n
        (st.trafficCount.set data.light_id.toNat
          (wrapInt32 (st.trafficCount.getD data.light_id.toNat 0 + data.num_cars))) :: reports,
        ?_, hlen2, ?_, ?_⟩
      · simp only [consumerFunction.run, hstep, hrun, Option.toList, List.singleton_append]
      · intro r hr
        rcases List.mem_cons.1 hr with rfl | hr
        · refine ⟨?_, rfl⟩
          simp only [consumerFunction.closeWindow, List.length_set]
          exact hlen
        · exact hrep r hr
      · intro s
        obtain ⟨k1, h1⟩ := hsum s
        obtain ⟨k2, h2⟩ := hnew s
        simp only [getD_replicate_zero] at h1
        refine ⟨k1 + k2, ?_⟩
        simp only [List.map_cons, List.sum_cons, consumerFunction.closeWindow]
        rw [h2, countFor_cons s data _ hd.1]
        linarith
    · rw [if_neg hclose] at hstep
      obtain ⟨st2, reports, hrun, hlen2, hrep, hsum⟩ :=
        ih { trafficCount := st.trafficCount.set data.light_id.toNat
                (wrapInt32 (st.trafficCount.getD data.light_id.toNat 0 + data.num_cars)),
             last_hour := st.last_hour }
          (by simp only [List.length_set]; exact hlen) hrest
      refine ⟨st2, reports, ?_, hlen2, hrep, ?_⟩
      · simp only [consumerFunction.run, hstep, hrun, Option.toList, List.nil_append]
      · intro s
        obtain ⟨k1, h1⟩ := hsum s
        obtain ⟨k2, h2⟩ := hnew s
        simp only [] at h1
        rw [h2] at h1
        refine ⟨k1 + k2, ?_⟩
        simp only [List.map_cons]
        rw [countFor_cons s data _ hd.1]
        linarith

/-- C7, as stated, fails: one sensor, readings of 2147483647 cars and then 1
car, no window close. The total held after them is -2147483648, while the sum
of the counts is 2147483648. -/
theorem no_loss_overflow_counterexample :
    consumerFunction.init 1 0 = some { trafficCount := [0], last_hour := 0 } ∧
    consumerFunction.run std_sort_libstdcxx 1 1 { trafficCount := [0], last_hour := 0 }
        [((.mk 0 0 2147483647), 1), ((.mk 0 0 1), 2)]
      = some ({ trafficCount := [-2147483648], last_hour := 0 }, []) ∧
    countFor 0 (([((.mk 0 0 2147483647), 1), ((.mk 0 0 1), 2)] :
      List (TrafficSignalData × Int)).map Prod.fst) = 2147483648 ∧
    (([] : List WindowReport).map (fun r => r.totals.getD 0 0)).sum
        + ([-2147483648] : List Int).getD 0 0
      ≠ countFor 0 (([((.mk 0 0 2147483647), 1), ((.mk 0 0 1), 2)] :
          List (TrafficSignalData × Int)).map Prod.fst) := by
  refine ⟨by decide, by decide, by decide, by decide⟩

/-- C7, amended. No loss and no duplication in aggregation: from the consumer's
initial state, for every sequence of readings with sensor ids in
`[0, sensorCount)` and every sequence of clock values, the run is defined and,
for each sensor `s`, the totals of `s` reported at the window closes (taken
before the reset) plus the total of `s` still held equal the sum of the counts
of the processed readings of `s` up to a multiple of `2^32`; they are equal
when the counts of each sensor over every contiguous stretch of the readings
sum to a value representable as an `int`. -/
theorem no_loss_no_duplication (std_sort : List (Int × Int) → List (Int × Int))
    (n top_n now0 : Int) (inputs : List (TrafficSignalData × Int))
    (hn : 0 ≤ n)
    (hids : ∀ x ∈ inputs, 0 ≤ x.1.light_id ∧ x.1.light_id < n) :
    ∃ st0 st1 reports, consumerFunction.init n now0 = some st0 ∧
      consumerFunction.run std_sort n top_n st0 inputs = some (st1, reports) ∧
      (∀ r ∈ reports, (r.totals.length : Int) = n ∧
        r = consumerFunction.closeWindow std_sort n top_n r.totals) ∧
      (∀ s : Int, 0 ≤ s → s < n → ∃ k : Int,
        (reports.map (fun r => r.totals.getD s.toNat 0)).sum + st1.trafficCount.getD s.toNat 0
          = countFor s (inputs.map Prod.fst) + 4294967296 * k) ∧
      (SumsFit (inputs.map Prod.fst) →
        ∀ s : Int, 0 ≤ s → s < n →
          (reports.map (fun r => r.totals.getD s.toNat 0)).sum
              + st1.trafficCount.getD s.toNat 0
            = countFor s (inputs.map Prod.fst)) := by
  have hneg : ¬ n < 0 := by omega
  have hlen0 : ((List.replicate n.toNat (0 : Int)).length : Int) = n := by
    simp only [List.length_replicate]; omega
  obtain ⟨st1, reports, hrun, _, hrep, hmod⟩ :=
    run_conservation_mod std_sort n top_n inputs
      { trafficCount := List.replicate n.toNat 0, last_hour := now0 } hlen0 hids
  refine ⟨_, st1, reports, by simp [consumerFunction.init, hneg], hrun, hrep, ?_, ?_⟩
  · intro s hs0 _
    obtain ⟨k, hk⟩ := hmod s.toNat
    simp only [getD_replicate_zero, zero_add] at hk
    exact ⟨k, by rw [hk, Int.toNat_of_nonneg hs0]⟩
  · intro hfit s hs0 _
    obtain ⟨st2, reports2, hrun2, _, _, hsum⟩ :=
      run_conservation std_sort n top_n inputs
        { trafficCount := List.replicate n.toNat 0, last_hour := now0 } [] hlen0
        (by intro j; simp [getD_replicate_zero, countFor])
        (by simpa using hfit) hids
    rw [hrun] at hrun2
    simp only [Option.some.injEq, Prod.mk.injEq] at hrun2
    obtain ⟨rfl, rfl⟩ := hrun2
    have h1 := hsum s.toNat
    simp only [getD_replicate_zero, zero_add] at h1
    rw [h1, Int.toNat_of_nonneg hs0]

/-- Three readings for two sensors, the second of which closes a window: the
sums are representable and the identity is exact. -/
theorem no_loss_no_duplication_witness :
    SumsFit (([((.mk 5 0 10), 10), ((.mk 3599 1 5), 3600), ((.mk 3700 0 7), 3700)] :
      List (TrafficSignalData × Int)).map Prod.fst) ∧
    ∃ st0 st1 reports, consumerFunction.init 2 0 = some st0 ∧
      consumerFunction.run std_sort_libstdcxx 2 1 st0
        [((.mk 5 0 10), 10), ((.mk 3599 1 5), 3600), ((.mk 3700 0 7), 3700)]
          = some (st1, reports) ∧
      ∀ s : Int, 0 ≤ s → s < 2 →
        (reports.map (fun r => r.totals.getD s.toNat 0)).sum + st1.trafficCount.getD s.toNat 0
          = countFor s
              (([((.mk 5 0 10), 10), ((.mk 3599 1 5), 3600), ((.mk 3700 0 7), 3700)] :
                List (TrafficSignalData × Int)).map Prod.fst) := by
  have hfit : SumsFit (([((.mk 5 0 10), 10), ((.mk 3599 1 5), 3600), ((.mk 3700 0 7), 3700)] :
      List (TrafficSignalData × Int)).map Prod.fst) :=
    sumsFit_of_small _ (by decide) (by decide)
  obtain ⟨st0, st1, reports, hinit, hrun, _, _, hexact⟩ :=
    no_loss_no_duplication std_sort_libstdcxx 2 1 0
      [((.mk 5 0 10), 10), ((.mk 3599 1 5), 3600), ((.mk 3700 0 7), 3700)]
      (by decide) (by decide)
  exact ⟨hfit, st0, st1, reports, hinit, hrun, hexact hfit⟩

/-! ## End to end -/

/-- While every clock value read is less than an hour after `last_hour`, no
report is emitted and `last_hour` stays. -/
theorem run_no_close (std_sort : List (Int × Int) → List (Int × Int))
    (n top_n : Int) (inputs : List (TrafficSignalData × Int)) :
    ∀ (st st1 : ConsumerState) (reports : List WindowReport),
      (∀ x ∈ inputs, x.2 - st.last_hour < 3600) →
      consumerFunction.run std_sort n top_n st inputs = some (st1, reports) →
      reports = [] := by
  induction inputs with
  | nil =>
    intro st st1 reports _ h
    simp only [consumerFunction.run, Option.some.injEq, Prod.mk.injEq] at h
    exact h.2.symm
  | cons x rest ih =>
    intro st st1 reports hopen h
    obtain ⟨data, now⟩ := x
    have hx : now - st.last_hour < 3600 := hopen (data, now) (by simp)
    have hnot : ¬ now - st.last_hour ≥ 3600 := by omega
    simp only [consumerFunction.run, consumerFunction.step] at h
    cases hacc : consumerFunction.accumulate st.trafficCount data with
    | none => simp [hacc] at h
    | some tc =>
      simp only [hacc, if_neg hnot] at h
      cases hr : consumerFunction.run std_sort n top_n
          { trafficCount := tc, last_hour := st.last_hour } rest with
      | none => simp [hr] at h
      | some res =>
        obtain ⟨st2, outs⟩ := res
        simp only [hr, Option.toList, List.nil_append, Option.some.injEq, Prod.mk.injEq] at h
        have := ih { trafficCount := tc, last_hour := st.last_hour } st2 outs
          (fun y hy => hopen y (List.mem_cons_of_mem _ hy)) hr
        rw [← h.2, this]

/-- With `top_n = 1`, a sensor whose total is strictly the largest is the one
reported, whatever the sort does with ties. -/
theorem top1_of_strict_max (std_sort : List (Int × Int) → List (Int × Int))
    (h : StdSortContract sortComparator std_sort) (n : Int) (totals : List Int)
    (s : Int) (h0 : 0 ≤ s) (h1 : s < n)
    (hmax : ∀ j : Int, 0 ≤ j → j < n → j ≠ s →
      totals.getD j.toNat 0 < totals.getD s.toNat 0) :
    (consumerFunction.closeWindow std_sort n 1 totals).printed
      = [(s, totals.getD s.toNat 0)] := by
  rw [printed_eq]
  have hmem := mem_sorted_of_id std_sort h n totals s h0 h1
  have hs := contract_sorted std_sort h (consumerFunction.buildTrafficLights n totals)
  have hsub : ∀ e ∈ std_sort (consumerFunction.buildTrafficLights n totals),
      0 ≤ e.1 ∧ e.1 < n ∧ e.2 = totals.getD e.1.toNat 0 :=
    fun e he => (mem_buildTrafficLights n totals e).1 ((h _).1.mem_iff.1 he)
  generalize std_sort (consumerFunction.buildTrafficLights n totals) = l at hmem hs hsub
  cases l with
  | nil => simp at hmem
  | cons x rest =>
    have hx := hsub x (by simp)
    have hxs : x = (s, totals.getD s.toNat 0) := by
      rcases List.mem_cons.1 hmem with heq | hin
      · exact heq.symm
      · have hle : totals.getD s.toNat 0 ≤ x.2 := (List.pairwise_cons.1 hs).1 _ hin
        by_cases hxi : x.1 = s
        · obtain ⟨x1, x2⟩ := x
          simp only at hxi hx
          subst hxi
          rw [hx.2.2]
        · have := hmax x.1 hx.1 hx.2.1 hxi
          rw [hx.2.2] at hle
          omega
    simp [hxs]

/-- C8, as stated, fails: through a queue of capacity 2, two producers add a
reading of 2147483647 cars and a reading of 1 car for sensor 0 and the consumer
removes both; no window closes. The total the consumer then holds, and a forced
close would report, is -2147483648, while the counts sum to 2147483648. -/
theorem end_to_end_overflow_counterexample :
    runOps (QueueTrace.init 2)
        [QueueOp.add 0 (.mk 0 0 2147483647), QueueOp.add 1 (.mk 0 0 1), QueueOp.remove,
          QueueOp.remove]
      = some { queue := { buffer := [], max_size := 2 },
               removed := [(.mk 0 0 2147483647), (.mk 0 0 1)] } ∧
    consumerFunction.init 1 0 = some { trafficCount := [0], last_hour := 0 } ∧
    consumerFunction.run std_sort_libstdcxx 1 1 { trafficCount := [0], last_hour := 0 }
        (([(.mk 0 0 2147483647), (.mk 0 0 1)] : List TrafficSignalData).zip [1, 2])
      = some ({ trafficCount := [-2147483648], last_hour := 0 }, []) ∧
    (consumerFunction.closeWindow std_sort_libstdcxx 1 1 [-2147483648]).printed
      = [(0, -2147483648)] ∧
    countFor 0 (added [QueueOp.add 0 (.mk 0 0 2147483647), QueueOp.add 1 (.mk 0 0 1),
      QueueOp.remove, QueueOp.remove]) = 2147483648 := by
  refine ⟨by decide, by decide, by decide, by decide, by decide⟩

/-- C8, amended. End-to-end sum under any interleaving: for every capacity and
every sequence of completed `add` and `remove` operations that leaves the
buffer empty, when the consumer processes the removed readings (sensor ids in
`[0, sensorCount)`), every clock value it reads is less than an hour after its
start, and the counts of each sensor over every contiguous stretch of the added
readings sum to a value representable as an `int`, no window closes, and the
totals it then holds are, for each sensor, the sum of the counts of all readings
added for it. The report that the window-close block builds from these totals
gives each listed sensor that sum, and with `top_n = 1` it is the single pair of
the sensor whose sum is strictly the largest. -/
theorem end_to_end_sum (std_sort : List (Int × Int) → List (Int × Int))
    (hsort : StdSortContract sortComparator std_sort)
    (n top_n now0 : Int) (capacity : Nat) (ops : List QueueOp) (t : QueueTrace)
    (clock : List Int)
    (hcap : 1 ≤ capacity) (hn : 0 ≤ n)
    (hrun : runOps (QueueTrace.init capacity) ops = some t)
    (hdrained : t.queue.buffer = [])
    (hids : ∀ d ∈ added ops, 0 ≤ d.light_id ∧ d.light_id < n)
    (hfit : SumsFit (added ops))
    (hclock : clock.length = t.removed.length)
    (hopen : ∀ c ∈ clock, c - now0 < 3600) :
    1 ≤ t.queue.max_size ∧ t.removed = added ops ∧
    ∃ st0 st1, consumerFunction.init n now0 = some st0 ∧
      consumerFunction.run std_sort n top_n st0 (t.removed.zip clock) = some (st1, []) ∧
      (∀ s : Int, 0 ≤ s → s < n →
        st1.trafficCount[s.toNat]? = some (countFor s (added ops))) ∧
      (∀ e ∈ (consumerFunction.closeWindow std_sort n top_n st1.trafficCount).printed,
        e.2 = countFor e.1 (added ops)) ∧
      (∀ s : Int, 0 ≤ s → s < n →
        (∀ j : Int, 0 ≤ j → j < n → j ≠ s →
          countFor j (added ops) < countFor s (added ops)) →
        (consumerFunction.closeWindow std_sort n 1 st1.trafficCount).printed
          = [(s, countFor s (added ops))]) := by
  obtain ⟨hmax, _, happ⟩ := runOps_spec ops _ t hrun (init_size capacity)
  have hrem : t.removed = added ops := by
    simpa [QueueTrace.init, BoundedBufferQueue.new, hdrained] using happ
  have hzip : (t.removed.zip clock).map Prod.fst = added ops := by
    rw [List.map_fst_zip _ _ (by omega), hrem]
  have hneg : ¬ n < 0 := by omega
  obtain ⟨st1, reports, hcr, hlen1, _, hsum⟩ :=
    run_conservation std_sort n top_n (t.removed.zip clock)
      { trafficCount := List.replicate n.toNat 0, last_hour := now0 } []
      (by simp only [List.length_replicate]; omega)
      (by intro j; simp [getD_replicate_zero, countFor])
      (by rw [hzip]; simpa using hfit)
      (by
        intro x hx
        have : x.1 ∈ (t.removed.zip clock).map Prod.fst := List.mem_map.2 ⟨x, hx, rfl⟩
        rw [hzip] at this
        exact hids _ this)
  have hnone : reports = [] :=
    run_no_close std_sort n top_n _ _ st1 reports
      (by
        intro x hx
        exact hopen x.2 (List.of_mem_zip hx).2)
      hcr
  subst hnone
  have htot : ∀ s : Int, 0 ≤ s → st1.trafficCount.getD s.toNat 0 = countFor s (added ops) := by
    intro s hs0
    have h1 := hsum s.toNat
    simp only [getD_replicate_zero, zero_add, List.map_nil, List.sum_nil] at h1
    rw [h1, Int.toNat_of_nonneg hs0, hzip]
  refine ⟨?_, hrem, _, st1, by simp [consumerFunction.init, hneg], hcr, ?_, ?_, ?_⟩
  · have : (QueueTrace.init capacity).queue.max_size = capacity := rfl
    omega
  · intro s hs0 hs1
    have hlt : s.toNat < st1.trafficCount.length := by omega
    rw [← htot s hs0]
    simp [List.getD_eq_getElem?_getD, List.getElem?_eq_getElem hlt]
  · intro e he
    obtain ⟨e0, _, e2⟩ := printed_entry std_sort hsort n top_n _ e he
    rw [e2, htot e.1 e0]
  · intro s hs0 hs1 hmaxs
    rw [top1_of_strict_max std_sort hsort n st1.trafficCount s hs0 hs1, htot s hs0]
    intro j hj0 hj1 hne
    rw [htot j hj0, htot s hs0]
    exact hmaxs j hj0 hj1 hne

/-- The scenario of the specification: capacity 2, two producers each adding
10, 20 and 30 cars for sensor 0, five sensors, `top_n = 1`: the totals are
120, 0, 0, 0, 0 and the report is `[(0, 120)]`. -/
theorem end_to_end_sum_witness :
    runOps (QueueTrace.init 2) scenarioOps = some scenarioTrace ∧
    ∃ st0 st1, consumerFunction.init 5 0 = some st0 ∧
      consumerFunction.run std_sort_libstdcxx 5 1 st0 (scenarioTrace.removed.zip scenarioClock)
        = some (st1, []) ∧
      (∀ s : Int, 0 ≤ s → s < 5 →
        st1.trafficCount[s.toNat]? = some (countFor s (added scenarioOps))) ∧
      (consumerFunction.closeWindow std_sort_libstdcxx 5 1 st1.trafficCount).printed
        = [(0, 120)] := by
  obtain ⟨_, _, st0, st1, hinit, hrun, htot, _, htop⟩ :=
    end_to_end_sum std_sort_libstdcxx std_sort_libstdcxx_contract 5 1 0 2 scenarioOps scenarioTrace
      scenarioClock (by decide) (by decide) (by decide) (by decide) (by decide)
      (sumsFit_of_small _ (by decide) (by decide)) (by decide) (by decide)
  refine ⟨by decide, st0, st1, hinit, hrun, htot, ?_⟩
  have h120 : countFor 0 (added scenarioOps) = 120 := by decide
  rw [← h120]
  apply htop 0 (by decide) (by decide)
  intro j hj0 hj1 hne
  interval_cases j
  · exact absurd rfl hne
  all_goals decide

/-! ## Producer -/

/-- C9, evaluated on the code: whatever its third argument, `producerFunction`
calls `add` twelve times, each time with a reading of the given sensor id. With
the third argument 5 the number of calls is 12, not 5. -/
theorem producer_iteration_count (id K : Int) (clock rand : Nat → Int) :
    (producerFunction id K clock rand).length = 12 ∧
    (∀ d ∈ producerFunction id K clock rand, d.light_id = id) ∧
    (producerFunction id 5 clock rand).length ≠ 5 := by
  refine ⟨by simp [producerFunction, producerFunction.num_iterations], ?_,
    by simp [producerFunction, producerFunction.num_iterations]⟩
  intro d hd
  simp only [producerFunction, List.mem_map] at hd
  obtain ⟨i, _, rfl⟩ := hd
  rfl

/-! ## The window-close condition -/

/-- C11. Window-close condition: in one loop iteration, after the reading has
been accumulated, a report is emitted and the state reset exactly when
`current_time - last_hour ≥ 3600`. When the condition is false nothing is
emitted, `last_hour` is unchanged and the totals are the accumulated ones; when
it is true the report is built from the accumulated totals, in which the entry
of the reading's sensor is the `int` sum of its previous value and the
reading's count (so the reading that triggered the check is included), the
totals are reset and `last_hour` becomes `current_time`. -/
theorem window_close_condition (std_sort : List (Int × Int) → List (Int × Int))
    (n top_n : Int) (st : ConsumerState) (data : TrafficSignalData) (now : Int)
    (h0 : 0 ≤ data.light_id) (h1 : data.light_id < st.trafficCount.length) :
    ∃ tc old, consumerFunction.accumulate st.trafficCount data = some tc ∧
      st.trafficCount[data.light_id.toNat]? = some old ∧
      tc[data.light_id.toNat]? = some (wrapInt32 (old + data.num_cars)) ∧
      (fitsInt32 (old + data.num_cars) →
        tc[data.light_id.toNat]? = some (old + data.num_cars)) ∧
      ((∃ st1 r, consumerFunction.step std_sort n top_n st data now = some (st1, some r))
        ↔ now - st.last_hour ≥ 3600) ∧
      (¬ now - st.last_hour ≥ 3600 →
        consumerFunction.step std_sort n top_n st data now
          = some ({ trafficCount := tc, last_hour := st.last_hour }, none)) ∧
      (now - st.last_hour ≥ 3600 →
        consumerFunction.step std_sort n top_n st data now
          = some ({ trafficCount := List.replicate n.toNat 0, last_hour := now },
                  some (consumerFunction.closeWindow std_sort n top_n tc)) ∧
        (consumerFunction.closeWindow std_sort n top_n tc).totals = tc ∧
        (consumerFunction.closeWindow std_sort n top_n tc).trafficLights
          = std_sort (consumerFunction.buildTrafficLights n tc)) := by
  have hlt : data.light_id.toNat < st.trafficCount.length := by omega
  have hacc := accumulate_eq st.trafficCount data h0 h1
  have hstep := step_eq std_sort n top_n st data now _ hacc
  have hset : (st.trafficCount.set data.light_id.toNat
      (wrapInt32 (st.trafficCount.getD data.light_id.toNat 0 + data.num_cars)))[
        data.light_id.toNat]?
      = some (wrapInt32 (st.trafficCount.getD data.light_id.toNat 0 + data.num_cars)) := by
    rw [List.getElem?_set]
    simp [hlt]
  refine ⟨_, st.trafficCount.getD data.light_id.toNat 0, hacc, ?_, hset, ?_, ?_, ?_, ?_⟩
  · simp [List.getD_eq_getElem?_getD, List.getElem?_eq_getElem hlt]
  · intro hfit
    rw [hset, wrapInt32_of_fits _ hfit]
  · constructor
    · rintro ⟨st1, r, hs⟩
      by_contra hno
      rw [hstep, if_neg hno] at hs
      simp at hs
    · intro hclose
      rw [hstep, if_pos hclose]
      exact ⟨_, _, rfl⟩
  · intro hno
    rw [hstep, if_neg hno]
  · intro hclose
    rw [hstep, if_pos hclose]
    exact ⟨rfl, rfl, rfl⟩

/-- A reading that arrives 3599 seconds after the window start leaves it open;
the statement at that input. -/
theorem window_close_condition_witness :
    ((0 : Int) ≤ (TrafficSignalData.mk 0 1 7).light_id ∧
      (TrafficSignalData.mk 0 1 7).light_id < (([10, 25, 25] : List Int).length : Int)) ∧
    ∃ tc old, consumerFunction.accumulate [10, 25, 25] (.mk 0 1 7) = some tc ∧
      ([10, 25, 25] : List Int)[(1 : Int).toNat]? = some old ∧
      tc[(1 : Int).toNat]? = some (wrapInt32 (old + 7)) ∧
      ((∃ st1 r, consumerFunction.step std_sort_libstdcxx 3 2 ⟨[10, 25, 25], 0⟩ (.mk 0 1 7) 3599
            = some (st1, some r))
        ↔ (3599 : Int) - 0 ≥ 3600) ∧
      (¬ (3599 : Int) - 0 ≥ 3600 →
        consumerFunction.step std_sort_libstdcxx 3 2 ⟨[10, 25, 25], 0⟩ (.mk 0 1 7) 3599
          = some ({ trafficCount := tc, last_hour := 0 }, none)) := by
  obtain ⟨tc, old, hacc, hold, htc, _, hiff, hopen, _⟩ :=
    window_close_condition std_sort_libstdcxx 3 2 ⟨[10, 25, 25], 0⟩ (.mk 0 1 7) 3599
      (by decide) (by decide)
  exact ⟨by decide, tc, old, hacc, hold, htc, hiff, hopen⟩

/-! ## Sensor ids outside the vector -/

theorem accumulate_none (trafficCount : List Int) (data : TrafficSignalData)
    (hout : data.light_id < 0 ∨ (trafficCount.length : Int) ≤ data.light_id) :
    consumerFunction.accumulate trafficCount data = none := by
  unfold consumerFunction.accumulate
  by_cases hneg : data.light_id < 0
  · simp [hneg]
  · have hge : trafficCount.length ≤ data.light_id.toNat := by omega
    simp [hneg, List.getElem?_eq_none hge]

theorem accumulateOutcome_no_assertion (trafficCount : List Int) (data : TrafficSignalData) :
    consumerFunction.accumulateOutcome trafficCount data ≠ Outcome.assertionFailure := by
  unfold consumerFunction.accumulateOutcome
  cases consumerFunction.accumulate trafficCount data <;> simp

/-- C12, as stated, fails: for five sensors and a reading with sensor id 5 the
specification asks for a fatal assertion, but the statement
`trafficCount[data.light_id] += data.num_cars` has no check in front of it and
indexes outside the vector, which is undefined behaviour and not an assertion. -/
theorem out_of_range_id_counterexample :
    ¬ ((0 : Int) ≤ ((.mk 0 5 7) : TrafficSignalData).light_id ∧
        ((.mk 0 5 7) : TrafficSignalData).light_id < (([0, 0, 0, 0, 0] : List Int).length : Int)) ∧
    accumulateAsSpecified [0, 0, 0, 0, 0] (.mk 0 5 7) = Outcome.assertionFailure ∧
    consumerFunction.accumulateOutcome [0, 0, 0, 0, 0] (.mk 0 5 7) = Outcome.undefinedBehaviour ∧
    consumerFunction.accumulateOutcome [0, 0, 0, 0, 0] (.mk 0 5 7)
      ≠ accumulateAsSpecified [0, 0, 0, 0, 0] (.mk 0 5 7) := by
  refine ⟨by decide, by decide, by decide, by decide⟩

/-- C12, amended. For every dequeued reading whose sensor id is outside
`[0, sensorCount)` the accumulation indexes outside the totals vector without
any check: the statement has no defined behaviour, so the loop iteration has
no defined result, and no run of the code ends in an assertion failure. For a
sensor id inside the range the statement completes, with the `int` sum stored,
which is what the specification says whenever that sum is representable. -/
theorem out_of_range_id_undefined (trafficCount : List Int) (data : TrafficSignalData)
    (hout : data.light_id < 0 ∨ (trafficCount.length : Int) ≤ data.light_id) :
    consumerFunction.accumulateOutcome trafficCount data = Outcome.undefinedBehaviour ∧
    consumerFunction.accumulate trafficCount data = none ∧
    (∀ (std_sort : List (Int × Int) → List (Int × Int)) (n top_n last_hour now : Int),
      consumerFunction.step std_sort n top_n
        { trafficCount := trafficCount, last_hour := last_hour } data now = none) ∧
    (∀ (tc : List Int) (d : TrafficSignalData),
      consumerFunction.accumulateOutcome tc d ≠ Outcome.assertionFailure) ∧
    (∀ (tc : List Int) (d : TrafficSignalData),
      0 ≤ d.light_id → d.light_id < tc.length →
      consumerFunction.accumulateOutcome tc d
        = Outcome.completes (tc.set d.light_id.toNat
            (wrapInt32 (tc.getD d.light_id.toNat 0 + d.num_cars))) ∧
      (fitsInt32 (tc.getD d.light_id.toNat 0 + d.num_cars) →
        consumerFunction.accumulateOutcome tc d = accumulateAsSpecified tc d)) := by
  have hnone := accumulate_none trafficCount data hout
  refine ⟨?_, hnone, ?_, accumulateOutcome_no_assertion, ?_⟩
  · simp [consumerFunction.accumulateOutcome, hnone]
  · intro std_sort n top_n last_hour now
    simp [consumerFunction.step, hnone]
  · intro tc d h0 h1
    refine ⟨?_, ?_⟩
    · simp only [consumerFunction.accumulateOutcome, accumulate_eq tc d h0 h1]
    · intro hfit
      simp only [consumerFunction.accumulateOutcome, accumulate_eq tc d h0 h1,
        accumulateAsSpecified, if_pos (And.intro h0 h1), wrapInt32_of_fits _ hfit]

/-- The amended statement at five sensors and a reading with sensor id 5. -/
theorem out_of_range_id_undefined_witness :
    (((.mk 0 5 7) : TrafficSignalData).light_id < 0 ∨
      ((([0, 0, 0, 0, 0] : List Int).length : Int) ≤ ((.mk 0 5 7) : TrafficSignalData).light_id)) ∧
    consumerFunction.accumulateOutcome [0, 0, 0, 0, 0] (.mk 0 5 7) = Outcome.undefinedBehaviour :=
  ⟨by decide,
   (out_of_range_id_undefined [0, 0, 0, 0, 0] (.mk 0 5 7) (by decide)).1⟩

/-! ## Configuration values -/

theorem runOps_capacity_zero (ops : List QueueOp) (t : QueueTrace)
    (h : runOps (QueueTrace.init 0) ops = some t) : ops = [] := by
  cases ops with
  | nil => rfl
  | cons op rest =>
    cases op with
    | add p data =>
      simp [runOps, stepOp, QueueTrace.init, BoundedBufferQueue.new, BoundedBufferQueue.add,
        BoundedBufferQueue.notFull] at h
    | remove =>
      simp [runOps, stepOp, QueueTrace.init, BoundedBufferQueue.new, BoundedBufferQueue.remove,
        BoundedBufferQueue.notEmpty] at h

/-- C13, as stated, fails: the constructor call `BoundedBufferQueue(0)` yields a
queue of capacity 0, and the consumer started with sensor count 0 gets its
initial state, an empty totals vector; neither is rejected. -/
theorem configuration_rejected_counterexample :
    BoundedBufferQueue.new 0 = { buffer := [], max_size := 0 } ∧
    consumerFunction.init 0 1000 = some { trafficCount := [], last_hour := 1000 } := by
  exact ⟨rfl, by decide⟩

/-- C13, amended. No configuration value is validated. The constructor
`BoundedBufferQueue(size)` yields an empty queue of capacity `size` for every
`size`, 0 included; with capacity 0 no `add` (and no `remove`) ever completes.
The consumer gets its initial state for every sensor count `n ≥ 0`, 0 included;
with sensor count 0 the totals vector is empty and every accumulation indexes
outside it. Only a negative sensor count stops the consumer, when the vector
constructor throws. -/
theorem configuration_not_validated :
    (∀ size : Nat, BoundedBufferQueue.new size = { buffer := [], max_size := size }) ∧
    (∀ data : TrafficSignalData, (BoundedBufferQueue.new 0).add data = none) ∧
    (∀ (ops : List QueueOp) (t : QueueTrace),
      runOps (QueueTrace.init 0) ops = some t → ops = []) ∧
    (∀ n now : Int, consumerFunction.init n now = none ↔ n < 0) ∧
    (∀ n now : Int, 0 ≤ n →
      consumerFunction.init n now
        = some { trafficCount := List.replicate n.toNat 0, last_hour := now }) ∧
    (∀ (now : Int) (data : TrafficSignalData),
      ∃ st, consumerFunction.init 0 now = some st ∧ st.trafficCount = [] ∧
        consumerFunction.accumulate st.trafficCount data = none) := by
  refine ⟨fun _ => rfl, ?_, runOps_capacity_zero, ?_, ?_, ?_⟩
  · intro data
    simp [BoundedBufferQueue.add, BoundedBufferQueue.notFull, BoundedBufferQueue.new]
  · intro n now
    unfold consumerFunction.init
    by_cases hn : n < 0 <;> simp [hn]
  · intro n now hn
    have : ¬ n < 0 := by omega
    simp [consumerFunction.init, this]
  · intro now data
    refine ⟨{ trafficCount := [], last_hour := now }, by simp [consumerFunction.init], rfl, ?_⟩
    exact accumulate_none [] data (by simp; omega)

/-! ## Blocking on a full buffer -/

/-- Whatever wakes the caller, `add` pushes only in a state where the buffer is
below its capacity, and `remove` pops only in a state where it is non-empty. -/
theorem addWaiting_some (data : TrafficSignalData) (states : List BoundedBufferQueue)
    (q1 : BoundedBufferQueue) (h : addWaiting data states = some q1) :
    ∃ q ∈ states, q.buffer.length < q.max_size ∧
      q1 = { q with buffer := q.buffer ++ [data] } := by
  induction states with
  | nil => simp [addWaiting] at h
  | cons q later ih =>
    simp only [addWaiting] at h
    cases hq : q.add data with
    | some q2 =>
      simp only [hq, Option.some.injEq] at h
      subst h
      obtain ⟨hlt, rfl⟩ := (add_some_iff _ _ _).1 hq
      exact ⟨q, by simp, hlt, rfl⟩
    | none =>
      simp only [hq] at h
      obtain ⟨q0, hmem, hlt, heq⟩ := ih h
      exact ⟨q0, List.mem_cons_of_mem _ hmem, hlt, heq⟩

theorem removeWaiting_some (states : List BoundedBufferQueue)
    (r : TrafficSignalData × BoundedBufferQueue) (h : removeWaiting states = some r) :
    ∃ q ∈ states, q.buffer = r.1 :: r.2.buffer ∧ r.2.max_size = q.max_size := by
  induction states with
  | nil => simp [removeWaiting] at h
  | cons q later ih =>
    simp only [removeWaiting] at h
    cases hq : q.remove with
    | some r2 =>
      simp only [hq, Option.some.injEq] at h
      subst h
      obtain ⟨x, q1⟩ := r2
      exact ⟨q, by simp, (remove_some_iff _ _ _).1 hq⟩
    | none =>
      simp only [hq] at h
      obtain ⟨q0, hmem, hq0⟩ := ih h
      exact ⟨q0, List.mem_cons_of_mem _ hmem, hq0⟩

theorem add_none_of_full (q : BoundedBufferQueue) (data : TrafficSignalData)
    (hfull : q.max_size ≤ q.buffer.length) : q.add data = none := by
  have : ¬ q.buffer.length < q.max_size := by omega
  simp [BoundedBufferQueue.add, BoundedBufferQueue.notFull, this]

theorem addWaiting_none_of_full (data : TrafficSignalData) (states : List BoundedBufferQueue)
    (hfull : ∀ s ∈ states, s.max_size ≤ s.buffer.length) :
    addWaiting data states = none := by
  induction states with
  | nil => rfl
  | cons q later ih =>
    simp only [addWaiting, add_none_of_full q data (hfull q (by simp))]
    exact ih (fun s hs => hfull s (List.mem_cons_of_mem _ hs))

/-- C14. Blocking under a full queue: in a state with `size = capacity`, an
`add` does not complete, at its first check or at any later wake-up, as long
as the states it finds are full, so the first operation to complete from that
state is a `remove`; `add` never pushes into a full buffer. After one `remove`
from the full buffer the pending `add` completes, and the buffer is full again
with the new reading at the tail. With capacity at least 1 such a `remove` is
possible. -/
theorem blocking_under_full_queue (q : BoundedBufferQueue) (data : TrafficSignalData)
    (hfull : q.buffer.length = q.max_size) :
    q.add data = none ∧
    (∀ states : List BoundedBufferQueue,
      (∀ s ∈ states, s.max_size ≤ s.buffer.length) → addWaiting data states = none) ∧
    (∀ (removed : List TrafficSignalData) (ops : List QueueOp) (t : QueueTrace),
      runOps { queue := q, removed := removed } ops = some t →
      ops = [] ∨ ∃ rest, ops = QueueOp.remove :: rest) ∧
    (∀ (q0 q3 : BoundedBufferQueue) (d : TrafficSignalData),
      q0.add d = some q3 → q0.buffer.length < q0.max_size) ∧
    (∀ (x : TrafficSignalData) (q1 : BoundedBufferQueue), q.remove = some (x, q1) →
      ∃ q2, q1.add data = some q2 ∧ addWaiting data [q, q, q1] = some q2 ∧
        q2.buffer = q1.buffer ++ [data] ∧ q2.buffer.getLast? = some data ∧
        q2.max_size = q.max_size ∧ q2.buffer.length = q2.max_size) ∧
    (1 ≤ q.max_size → ∃ x q1, q.remove = some (x, q1) ∧ q.buffer = x :: q1.buffer) := by
  have hadd : q.add data = none := add_none_of_full q data (by omega)
  refine ⟨hadd, fun states h => addWaiting_none_of_full data states h, ?_, ?_, ?_, ?_⟩
  · intro removed ops t h
    cases ops with
    | nil => exact Or.inl rfl
    | cons op rest =>
      cases op with
      | add p d =>
        have : q.add d = none := add_none_of_full q d (by omega)
        simp [runOps, stepOp, this] at h
      | remove => exact Or.inr ⟨rest, rfl⟩
  · intro q0 q3 d h
    exact ((add_some_iff _ _ _).1 h).1
  · intro x q1 hrem
    obtain ⟨hbuf, hmax⟩ := (remove_some_iff _ _ _).1 hrem
    have hlen : q1.buffer.length + 1 = q.max_size := by
      rw [← hfull, hbuf]; simp
    have hlt : q1.buffer.length < q1.max_size := by omega
    have hadd1 : q1.add data = some { q1 with buffer := q1.buffer ++ [data] } :=
      (add_some_iff _ _ _).2 ⟨hlt, rfl⟩
    refine ⟨_, hadd1, ?_, rfl, ?_, hmax, ?_⟩
    · simp only [addWaiting, hadd, hadd1]
    · simp
    · simp only [List.length_append, List.length_singleton]
      omega
  · intro hpos
    obtain ⟨buf, m⟩ := q
    cases buf with
    | nil =>
      simp only [List.length_nil] at hfull hpos
      omega
    | cons x rest =>
      exact ⟨x, { buffer := rest, max_size := m },
        by simp [BoundedBufferQueue.remove, BoundedBufferQueue.notEmpty], rfl⟩

/-- A queue of capacity 1 holding one reading: the `add` of a second reading
waits, and completes after the `remove` of the first. -/
theorem blocking_under_full_queue_witness :
    (({ buffer := [(.mk 100 0 10)], max_size := 1 } : BoundedBufferQueue).buffer.length = 1) ∧
    ({ buffer := [(.mk 100 0 10)], max_size := 1 } : BoundedBufferQueue).add (.mk 400 1 20) = none ∧
    ∃ x q1, ({ buffer := [(.mk 100 0 10)], max_size := 1 } : BoundedBufferQueue).remove
        = some (x, q1) ∧
      ∃ q2, q1.add (.mk 400 1 20) = some q2 ∧ q2.buffer = [(.mk 400 1 20)] ∧
        q2.buffer.length = q2.max_size := by
  obtain ⟨hadd, _, _, _, hafter, hrem⟩ :=
    blocking_under_full_queue { buffer := [(.mk 100 0 10)], max_size := 1 } (.mk 400 1 20) rfl
  obtain ⟨x, q1, hx, hbuf⟩ := hrem (by decide)
  obtain ⟨q2, h2, _, hb2, _, _, hlen2⟩ := hafter x q1 hx
  refine ⟨rfl, hadd, x, q1, hx, q2, h2, ?_, hlen2⟩
  have hq1 : q1.buffer = [] := by
    simp only [List.cons.injEq] at hbuf
    exact hbuf.2.symm
  rw [hb2, hq1]
  rfl

/-! ## The readings of the driver's producers -/

theorem mem_producers (clock rand : Nat → Nat → Int) (readings : List TrafficSignalData)
    (hr : readings ∈ main.producers clock rand) (d : TrafficSignalData) (hd : d ∈ readings) :
    ∃ i k : Nat, (i : Int) < main.num_producers ∧
      d = generateTrafficData (clock i k) (rand i k)
            (Int.tmod (i : Int) main.num_traffic_lights) := by
  simp only [main.producers, List.mem_map, List.mem_range] at hr
  obtain ⟨i, hi, rfl⟩ := hr
  simp only [producerFunction, List.mem_map, List.mem_range] at hd
  obtain ⟨k, _, rfl⟩ := hd
  refine ⟨i, k, ?_, rfl⟩
  have : main.num_producers.toNat = 3 := by decide
  have h3 : main.num_producers = 3 := rfl
  omega

/-- C16. Sensor-id validity in the driver: every reading enqueued by a
producer thread that `main` creates has `light_id = i % num_traffic_lights` for
the thread's index `i ≥ 0`, so `0 ≤ light_id < num_traffic_lights`; its count is
in `[0, 99]` when the values of `rand()` are non-negative; and the consumer's
access `trafficCount[data.light_id]` is inside the vector, in one accumulation
and over every run of the consumer of `main` on such readings. -/
theorem driver_sensor_ids_valid (clock rand : Nat → Nat → Int) :
    (∀ readings ∈ main.producers clock rand, ∀ d ∈ readings,
      (∃ i : Nat, (0 : Int) ≤ i ∧ (i : Int) < main.num_producers ∧
        d.light_id = Int.tmod (i : Int) main.num_traffic_lights) ∧
      0 ≤ d.light_id ∧ d.light_id < main.num_traffic_lights ∧
      ((∀ i k : Nat, 0 ≤ rand i k) → 0 ≤ d.num_cars ∧ d.num_cars ≤ 99) ∧
      (∀ tc : List Int, (tc.length : Int) = main.num_traffic_lights →
        ∃ tc1, consumerFunction.accumulate tc d = some tc1 ∧ tc1.length = tc.length)) ∧
    (∀ (std_sort : List (Int × Int) → List (Int × Int)) (now0 : Int)
        (inputs : List (TrafficSignalData × Int)),
      (∀ x ∈ inputs, ∃ readings ∈ main.producers clock rand, x.1 ∈ readings) →
      ∃ st0 st1 reports,
        consumerFunction.init main.num_traffic_lights now0 = some st0 ∧
        consumerFunction.run std_sort main.num_traffic_lights main.top_n st0 inputs
          = some (st1, reports)) := by
  have hid : ∀ readings ∈ main.producers clock rand, ∀ d ∈ readings,
      (∃ i : Nat, (0 : Int) ≤ i ∧ (i : Int) < main.num_producers ∧
        d.light_id = Int.tmod (i : Int) main.num_traffic_lights) ∧
      0 ≤ d.light_id ∧ d.light_id < main.num_traffic_lights ∧
      ((∀ i k : Nat, 0 ≤ rand i k) → 0 ≤ d.num_cars ∧ d.num_cars ≤ 99) := by
    intro readings hr d hd
    obtain ⟨i, k, hi, rfl⟩ := mem_producers clock rand readings hr d hd
    have h5 : (0 : Int) < main.num_traffic_lights := by decide
    have hi0 : (0 : Int) ≤ (i : Int) := Int.ofNat_nonneg i
    have hlow : 0 ≤ Int.tmod (i : Int) main.num_traffic_lights := Int.tmod_nonneg _ hi0
    have hhigh : Int.tmod (i : Int) main.num_traffic_lights < main.num_traffic_lights :=
      Int.tmod_lt_of_pos _ h5
    refine ⟨⟨i, hi0, hi, rfl⟩, hlow, hhigh, ?_⟩
    intro hrand
    have h1 := Int.tmod_nonneg 100 (hrand i k)
    have h2 := Int.tmod_lt_of_pos (rand i k) (by norm_num : (0 : Int) < 100)
    simp only [generateTrafficData]
    omega
  refine ⟨?_, ?_⟩
  · intro readings hr d hd
    obtain ⟨hi, h0, h1, hc⟩ := hid readings hr d hd
    refine ⟨hi, h0, h1, hc, ?_⟩
    intro tc htc
    exact ⟨_, accumulate_eq tc d h0 (by omega), by simp⟩
  · intro std_sort now0 inputs hin
    have h5 : (0 : Int) ≤ main.num_traffic_lights := by decide
    have hneg : ¬ main.num_traffic_lights < 0 := by decide
    obtain ⟨st1, reports, hrun, _⟩ :=
      run_conservation_mod std_sort main.num_traffic_lights main.top_n inputs
        { trafficCount := List.replicate main.num_traffic_lights.toNat 0, last_hour := now0 }
        (by simp only [List.length_replicate]; omega)
        (by
          intro x hx
          obtain ⟨readings, hr, hd⟩ := hin x hx
          obtain ⟨_, h0, h1, _⟩ := hid readings hr x.1 hd
          exact ⟨h0, h1⟩)
    exact ⟨_, st1, reports, by simp [consumerFunction.init, hneg], hrun⟩

/-- The third producer thread of `main` (index 2) with `rand()` returning 1234:
its first reading is for sensor 2 and counts 34 cars. -/
theorem driver_sensor_ids_valid_witness :
    (generateTrafficData 0 1234 2) ∈ producerFunction 2 5 (fun _ => 0) (fun _ => 1234) ∧
    (producerFunction 2 5 (fun _ => 0) (fun _ => 1234))
      ∈ main.producers (fun _ _ => 0) (fun _ _ => 1234) ∧
    (0 ≤ (generateTrafficData 0 1234 2).light_id ∧
      (generateTrafficData 0 1234 2).light_id < main.num_traffic_lights) ∧
    (0 ≤ (generateTrafficData 0 1234 2).num_cars ∧
      (generateTrafficData 0 1234 2).num_cars ≤ 99) := by
  have hd : (generateTrafficData 0 1234 2)
      ∈ producerFunction 2 5 (fun _ => 0) (fun _ => 1234) := by decide
  have hr : (producerFunction 2 5 (fun _ => 0) (fun _ => 1234))
      ∈ main.producers (fun _ _ => 0) (fun _ _ => 1234) := by decide
  obtain ⟨_, h0, h1, hc, _⟩ :=
    (driver_sensor_ids_valid (fun _ _ => 0) (fun _ _ => 1234)).1 _ hr _ hd
  exact ⟨hd, hr, ⟨h0, h1⟩, hc (fun _ _ => by decide)⟩

/-! ## Reading timestamps -/

theorem accumulate_congr (trafficCount : List Int) (d1 d2 : TrafficSignalData)
    (hid : d1.light_id = d2.light_id) (hcars : d1.num_cars = d2.num_cars) :
    consumerFunction.accumulate trafficCount d1 = consumerFunction.accumulate trafficCount d2 := by
  simp only [consumerFunction.accumulate, hid, hcars]

theorem step_congr (std_sort : List (Int × Int) → List (Int × Int))
    (n top_n : Int) (st : ConsumerState) (d1 d2 : TrafficSignalData) (now : Int)
    (hid : d1.light_id = d2.light_id) (hcars : d1.num_cars = d2.num_cars) :
    consumerFunction.step std_sort n top_n st d1 now
      = consumerFunction.step std_sort n top_n st d2 now := by
  simp only [consumerFunction.step, accumulate_congr st.trafficCount d1 d2 hid hcars]

theorem run_congr (std_sort : List (Int × Int) → List (Int × Int)) (n top_n : Int) :
    ∀ (inputs1 inputs2 : List (TrafficSignalData × Int)),
      List.Forall₂
        (fun a b => a.1.light_id = b.1.light_id ∧ a.1.num_cars = b.1.num_cars ∧ a.2 = b.2)
        inputs1 inputs2 →
      ∀ st : ConsumerState,
        consumerFunction.run std_sort n top_n st inputs1
          = consumerFunction.run std_sort n top_n st inputs2 := by
  intro inputs1
  induction inputs1 with
  | nil =>
    intro inputs2 h st
    cases h
    rfl
  | cons a l1 ih =>
    intro inputs2 h st
    cases h with
    | cons hab htail =>
      rename_i b l2
      obtain ⟨d1, t1⟩ := a
      obtain ⟨d2, t2⟩ := b
      obtain ⟨hid, hcars, ht⟩ := hab
      simp only at hid hcars ht
      subst ht
      simp only [consumerFunction.run, step_congr std_sort n top_n st d1 d2 t1 hid hcars]
      cases consumerFunction.step std_sort n top_n st d2 t1 with
      | none => rfl
      | some res =>
        obtain ⟨st1, out⟩ := res
        simp only [ih l2 htail st1]

/-- C17. Reports do not depend on reading timestamps: two sequences of readings
that agree in every position on `light_id` and `num_cars`, processed with the
same clock values from the same state, give the same result at every step:
after every number of iterations the consumer has emitted the same reports and
is in the same state (or both runs are undefined). Each iteration decides the
window by the clock value it reads, never by the reading's `timestamp`. -/
theorem reports_independent_of_timestamps
    (std_sort : List (Int × Int) → List (Int × Int)) (n top_n : Int) (st : ConsumerState)
    (inputs1 inputs2 : List (TrafficSignalData × Int))
    (h : List.Forall₂
      (fun a b => a.1.light_id = b.1.light_id ∧ a.1.num_cars = b.1.num_cars ∧ a.2 = b.2)
      inputs1 inputs2) :
    consumerFunction.run std_sort n top_n st inputs1
      = consumerFunction.run std_sort n top_n st inputs2 ∧
    (∀ k : Nat,
      consumerFunction.run std_sort n top_n st (inputs1.take k)
        = consumerFunction.run std_sort n top_n st (inputs2.take k)) ∧
    (∀ (s : ConsumerState) (d : TrafficSignalData) (now ts : Int),
      consumerFunction.step std_sort n top_n s { d with timestamp := ts } now
        = consumerFunction.step std_sort n top_n s d now) := by
  refine ⟨run_congr std_sort n top_n inputs1 inputs2 h st, ?_, ?_⟩
  · intro k
    exact run_congr std_sort n top_n _ _ (List.forall₂_take k h) st
  · intro s d now ts
    exact step_congr std_sort n top_n s _ d now rfl rfl

/-- Two runs over three sensors whose readings differ in their timestamps only;
the second reading closes the window in both. -/
theorem reports_independent_of_timestamps_witness :
    consumerFunction.run sortKeepingTies 3 2 ⟨[0, 0, 0], 0⟩
        [((.mk 5 0 10), 10), ((.mk 3599 1 5), 3600), ((.mk 3700 0 7), 3700)]
      = consumerFunction.run sortKeepingTies 3 2 ⟨[0, 0, 0], 0⟩
        [((.mk 9999 0 10), 10), ((.mk 0 1 5), 3600), ((.mk (-1) 0 7), 3700)] :=
  (reports_independent_of_timestamps sortKeepingTies 3 2 ⟨[0, 0, 0], 0⟩
    [((.mk 5 0 10), 10), ((.mk 3599 1 5), 3600), ((.mk 3700 0 7), 3700)]
    [((.mk 9999 0 10), 10), ((.mk 0 1 5), 3600), ((.mk (-1) 0 7), 3700)]
    (List.Forall₂.cons ⟨rfl, rfl, rfl⟩
      (List.Forall₂.cons ⟨rfl, rfl, rfl⟩
        (List.Forall₂.cons ⟨rfl, rfl, rfl⟩ List.Forall₂.nil)))).1

end TrafficSim
